import Mathlib

/-!
Shallow embedding of the reconciliation/merge-write subsystem of
`financial-indicators/excel_writer.py`.

The worksheet is modelled as a grid of optional cell values addressed by
1-based (row, column) pairs, as openpyxl exposes it: `Sheet.cells` records
every cell ever materialised (openpyxl creates a cell object even when its
value is set to `None`, and `max_row` / `max_column` count materialised
cells, with a floor of 1 on an empty sheet).

Dates written by the writers come back from a persisted workbook as midnight
datetimes; `WorksheetWriter._get_first_row` recovers the calendar date with
`.date()`.  `readDateCell` models that read: it succeeds exactly on a
date-valued cell and fails (Python `AttributeError`) otherwise.  Failure of a
Python statement is modelled by `Option`/`none` propagating outward.
-/

/-- Calendar date (year, month, day), as Python `datetime.date`.  Comparison
is lexicographic on (year, month, day), matching `datetime.date` ordering. -/
structure Date where
  year : Int
  month : Int
  day : Int
deriving DecidableEq, Repr

/-- Python `datetime.date` strict comparison `<` as a boolean. -/
def Date.ltb (a b : Date) : Bool :=
  decide (a.year < b.year) ||
    (decide (a.year = b.year) && (decide (a.month < b.month) ||
      (decide (a.month = b.month) && decide (a.day < b.day))))

/-- A scalar value held by a worksheet cell. -/
inductive CellValue where
  | vDate (d : Date)
  | vInt (n : Int)
  | vNum (q : ℚ)
  | vStr (s : String)
deriving DecidableEq, Repr

open CellValue

/-- Association list of materialised cells; the most recent write of a cell
is the first entry with its (row, column) key. -/
abbrev Cells := List ((Nat × Nat) × Option CellValue)

/-- Read a cell value from the materialised-cell list (first write wins). -/
def cellsGet (r c : Nat) : Cells → Option CellValue
  | [] => none
  | (k, v) :: rest => if k = (r, c) then v else cellsGet r c rest

/-- An openpyxl worksheet: the materialised cells. -/
structure Sheet where
  cells : Cells
deriving DecidableEq, Repr

/-- The blank worksheet (no cell materialised). -/
def Sheet.empty : Sheet := ⟨[]⟩

/-- `worksheet.cell(r, c).value = v` (also materialises the cell). -/
def Sheet.setCell (s : Sheet) (r c : Nat) (v : Option CellValue) : Sheet :=
  ⟨((r, c), v) :: s.cells⟩

/-- `worksheet.cell(r, c).value` (a never-materialised cell reads `None`). -/
def Sheet.getCell (s : Sheet) (r c : Nat) : Option CellValue :=
  cellsGet r c s.cells

/-- openpyxl `worksheet.max_row`: greatest materialised row, floor 1. -/
def Sheet.maxRow (s : Sheet) : Nat :=
  s.cells.foldr (fun e m => max e.1.1 m) 1

/-- openpyxl `worksheet.max_column`: greatest materialised column, floor 1. -/
def Sheet.maxCol (s : Sheet) : Nat :=
  s.cells.foldr (fun e m => max e.1.2 m) 1

/-- One fetched observation (`bcb_api.IndicatorRecord`): a `date`, a `value`
(arbitrary-precision decimal, modelled as `ℚ`), and the optional `end_date`
used by the TR variant. -/
structure IndicatorRecord where
  date : Date
  value : ℚ
  endDate : Option Date
deriving DecidableEq, Repr

/-- Placeholder record used with `List.getD`. -/
def defaultRecord : IndicatorRecord := ⟨⟨1, 1, 1⟩, 0, none⟩

/-- Reading the date key of a data row in `WorksheetWriter._get_first_row`:
`worksheet.cell(row, 1).value.date()`.  A persisted date cell reads back as a
midnight datetime whose `.date()` is the calendar date; any other value
(`None`, a number, a string) has no `.date()` and raises `AttributeError`
(modelled as `none`). -/
def readDateCell : Option CellValue → Option Date
  | some (CellValue.vDate d) => some d
  | _ => none

/-- Reading the date key of a data row in `IpcaWriter._get_first_row`:
`datetime.date(cell(row, 1).value, cell(row, 2).value, 1)`.  Both cells must
hold integers and the pair must be a valid year/month — `datetime.date`
raises `TypeError` or `ValueError` otherwise (modelled as `none`). -/
def readYearMonthCell : Option CellValue → Option CellValue → Option Date
  | some (CellValue.vInt y), some (CellValue.vInt m) =>
      if 1 ≤ y ∧ y ≤ 9999 ∧ 1 ≤ m ∧ m ≤ 12 then some ⟨y, m, 1⟩ else none
  | _, _ => none

/-- The reverse scan shared by `_get_first_row` (base and IPCA variants):
`for row in range(max_row, 1, -1)`, reading each row's date key with
`readKey`; return the row on an exact match, `row + 1` on the first strictly
earlier key, and 1 when the scan runs out (the `else` of the `for`).  A
failed key read is a raised exception aborting the write (`none`). -/
def locateAux (readKey : Nat → Option Date) (firstDate : Date) : Nat → Option Nat
  | 0 => some 1
  | 1 => some 1
  | (r + 2) =>
      match readKey (r + 2) with
      | none => none
      | some d =>
          if d = firstDate then some (r + 2)
          else if d.ltb firstDate then some (r + 3)
          else locateAux readKey firstDate (r + 1)

/-- `WorksheetWriter._get_first_row` (date-keyed variants). -/
def WorksheetWriter.getFirstRow (s : Sheet) (firstDate : Date) : Option Nat :=
  locateAux (fun row => readDateCell (s.getCell row 1)) firstDate s.maxRow

/-- `IpcaWriter._get_first_row` (year/month-keyed variant). -/
def IpcaWriter.getFirstRow (s : Sheet) (firstDate : Date) : Option Nat :=
  locateAux (fun row => readYearMonthCell (s.getCell row 1) (s.getCell row 2))
    firstDate s.maxRow

/-- Write the values `vs` into row `r` from column `c0` on (the inner column
loop of `_write_records`, also used by `_write_headers`). -/
def writeCellsRow (s : Sheet) (r c0 : Nat) : List (Option CellValue) → Sheet
  | [] => s
  | v :: vs => writeCellsRow (s.setCell r c0 v) r (c0 + 1) vs

/-- `WorksheetWriter._write_headers`: header values at row 1 from column 1. -/
def writeHeaders (headers : List CellValue) (s : Sheet) : Sheet :=
  writeCellsRow s 1 1 (headers.map some)

/-- The record loop of `_write_records`: record `i` is formatted and written
into row `firstRow + i`, columns 1 onward. -/
def writeRecordsLoop (format : IndicatorRecord → List (Option CellValue)) :
    List IndicatorRecord → Nat → Sheet → Sheet
  | [], _, s => s
  | rec :: rest, row, s =>
      writeRecordsLoop format rest (row + 1) (writeCellsRow s row 1 (format rec))

/-- `WorksheetWriter._erase_extra_records`: set every cell in rows
`row … max_row`, columns `1 … max_column`, to `None`.  The row range is fixed
up front (Python `range` evaluates its bounds once); the column bound is
re-read from the current sheet on every row. -/
def eraseExtraRecords (s : Sheet) (row : Nat) : Sheet :=
  (List.range' row (s.maxRow + 1 - row)).foldl
    (fun t r => (List.range' 1 t.maxCol).foldl (fun u c => u.setCell r c none) t) s

/-- The variant data of a concrete `WorksheetWriter` subclass: its headers,
its `_format_record`, and its `_get_first_row`. -/
structure WriterSpec where
  headers : List CellValue
  formatRecord : IndicatorRecord → List (Option CellValue)
  getFirstRow : Sheet → Date → Option Nat

/-- `WorksheetWriter._write_records`, run by the writer's constructor:
locate the first row from the first record's date (an empty record sequence
makes `records[0]` raise an uncaught `IndexError`), write the headers when
the locator answered row 1 and restart at row 2, write every record, then
erase all rows after the last written one. -/
def runWriter (w : WriterSpec) (s : Sheet) (records : List IndicatorRecord) :
    Option Sheet :=
  match records with
  | [] => none
  | r0 :: _ =>
      match w.getFirstRow s r0.date with
      | none => none
      | some firstRow =>
          let fr := if firstRow = 1 then 2 else firstRow
          let s1 := if firstRow = 1 then writeHeaders w.headers s else s
          let s2 := writeRecordsLoop w.formatRecord records fr s1
          some (eraseExtraRecords s2 (fr + records.length))

/-- Round-half-even of `q` to an integer: Python `decimal` `ROUND_HALF_EVEN`,
the default context rounding applied by `round(Decimal, n)`. -/
def roundHalfEvenInt (q : ℚ) : Int :=
  let f : Int := ⌊q⌋
  let frac : ℚ := q - (f : ℚ)
  if frac < 1 / 2 then f
  else if 1 / 2 < frac then f + 1
  else if f % 2 = 0 then f else f + 1

/-- Python `round(x, 8)` on a decimal value: half-even rounding to 8
fractional digits in exact decimal arithmetic. -/
def round8 (q : ℚ) : ℚ :=
  (roundHalfEvenInt (q * 100000000) : ℚ) / 100000000

/-- `WorksheetWriter._get_headers`: `('date', 'value')`. -/
def WorksheetWriter.getHeaders : List CellValue := [vStr "date", vStr "value"]

/-- `SelicWriter._get_headers`: the base headers plus `'daily_value'`. -/
def SelicWriter.getHeaders : List CellValue :=
  WorksheetWriter.getHeaders ++ [vStr "daily_value"]

/-- `CdiWriter._get_headers`: the base headers plus `'daily_value'`. -/
def CdiWriter.getHeaders : List CellValue :=
  WorksheetWriter.getHeaders ++ [vStr "daily_value"]

/-- `SelicWriter._format_record`:
`(date, value, 1 + round(value * 1 / 100, 8))`. -/
def SelicWriter.formatRecord (record : IndicatorRecord) : List (Option CellValue) :=
  [some (vDate record.date), some (vNum record.value),
    some (vNum (1 + round8 (record.value * 1 / 100)))]

/-- `CdiWriter._format_record`:
`(date, value, 1 + round(value * 1 / 100, 8))`. -/
def CdiWriter.formatRecord (record : IndicatorRecord) : List (Option CellValue) :=
  [some (vDate record.date), some (vNum record.value),
    some (vNum (1 + round8 (record.value * 1 / 100)))]

/-- `IpcaWriter._get_headers`: `('ano', 'mes', 'valor')`. -/
def IpcaWriter.getHeaders : List CellValue := [vStr "ano", vStr "mes", vStr "valor"]

/-- `IpcaWriter._format_record`: `(date.year, date.month, value)`. -/
def IpcaWriter.formatRecord (record : IndicatorRecord) : List (Option CellValue) :=
  [some (vInt record.date.year), some (vInt record.date.month), some (vNum record.value)]

/-- `TrWriter._get_headers`: `('data inicial', 'data final', 'valor')`. -/
def TrWriter.getHeaders : List CellValue :=
  [vStr "data inicial", vStr "data final", vStr "valor"]

/-- `TrWriter._format_record`: `(date, end_date, value)`. -/
def TrWriter.formatRecord (record : IndicatorRecord) : List (Option CellValue) :=
  [some (vDate record.date), record.endDate.map vDate, some (vNum record.value)]

/-- The `SelicWriter` variant. -/
def selicSpec : WriterSpec :=
  ⟨SelicWriter.getHeaders, SelicWriter.formatRecord, WorksheetWriter.getFirstRow⟩

/-- The `CdiWriter` variant. -/
def cdiSpec : WriterSpec :=
  ⟨CdiWriter.getHeaders, CdiWriter.formatRecord, WorksheetWriter.getFirstRow⟩

/-- The `IpcaWriter` variant. -/
def ipcaSpec : WriterSpec :=
  ⟨IpcaWriter.getHeaders, IpcaWriter.formatRecord, IpcaWriter.getFirstRow⟩

/-- The `TrWriter` variant (row location is inherited from the base class). -/
def trSpec : WriterSpec :=
  ⟨TrWriter.getHeaders, TrWriter.formatRecord, WorksheetWriter.getFirstRow⟩

/-- Result of Python `int(x)` on a metadata identifier cell: a parsed value,
a `TypeError` (caught by the scan, row skipped), or a `ValueError`
(uncaught, aborts the scan). -/
inductive PyIntResult where
  | ok (n : Int)
  | typeErr
  | valueErr
deriving DecidableEq, Repr

/-- Parse one decimal digit character. -/
def digitVal (ch : Char) : Option Nat :=
  if '0' ≤ ch ∧ ch ≤ '9' then some (ch.toNat - '0'.toNat) else none

/-- Accumulate decimal digits; any non-digit character fails the parse. -/
def parseDigits (acc : Nat) : List Char → Option Nat
  | [] => some acc
  | ch :: rest =>
      match digitVal ch with
      | none => none
      | some d => parseDigits (acc * 10 + d) rest

/-- Python `int(str)`: an optional leading minus sign followed by at least
one decimal digit; anything else raises `ValueError` (`none`). -/
def pyStrToInt (s : String) : Option Int :=
  match s.data with
  | [] => none
  | '-' :: [] => none
  | '-' :: ch :: rest => (parseDigits 0 (ch :: rest)).map (fun n => -(n : Int))
  | chars => (parseDigits 0 chars).map (fun n => (n : Int))

/-- Python `int(cell.value)`: `None` and dates raise `TypeError`; integers
pass through; decimals truncate toward zero; strings parse as an integer
literal or raise `ValueError`. -/
def pyIntCell : Option CellValue → PyIntResult
  | none => .typeErr
  | some (vInt n) => .ok n
  | some (vNum q) => .ok (q.num / (q.den : Int))
  | some (vDate _) => .typeErr
  | some (vStr str) =>
      match pyStrToInt str with
      | some n => .ok n
      | none => .valueErr

/-- Python `cell.value.date()` guarded by `except AttributeError`: a date
cell yields its date; anything else (empty cell, number, string) yields
`None`. -/
def pyDateCell : Option CellValue → Option Date
  | some (vDate d) => some d
  | _ => none

/-- The in-memory indicator → last-date mapping (a Python dict: insertion
ordered, unique keys). -/
abbrev MetaDict := List (Int × Option Date)

/-- Python dict assignment `d[k] = v`. -/
def dictInsert (k : Int) (v : Option Date) : MetaDict → MetaDict
  | [] => [(k, v)]
  | (k', v') :: rest =>
      if k = k' then (k, v) :: rest else (k', v') :: dictInsert k v rest

/-- Python dict lookup `d[k]` (`none` models the `KeyError` case). -/
def dictLookup (k : Int) : MetaDict → Option (Option Date)
  | [] => none
  | (k', v') :: rest => if k' = k then some v' else dictLookup k rest

/-- The scan loop of `MetadataWriter._get_indicator_last_date`, processing
rows `max_row … 2` downward; the accumulated dict receives one entry per
row whose identifier parses; a `TypeError` row is skipped; a `ValueError`
aborts the whole load. -/
def loadMetaAux (s : Sheet) : Nat → MetaDict → Option MetaDict
  | 0, d => some d
  | 1, d => some d
  | (r + 2), d =>
      match pyIntCell (s.getCell (r + 2) 1) with
      | .typeErr => loadMetaAux s (r + 1) d
      | .valueErr => none
      | .ok cod =>
          loadMetaAux s (r + 1) (dictInsert cod (pyDateCell (s.getCell (r + 2) 2)) d)

/-- `MetadataWriter._get_indicator_last_date`. -/
def MetadataWriter.getIndicatorLastDate (s : Sheet) : Option MetaDict :=
  loadMetaAux s s.maxRow []

/-- `MetadataWriter._write_headers`: `('indicator', 'last date')` at row 1. -/
def MetadataWriter.writeHeaders (s : Sheet) : Sheet :=
  (s.setCell 1 1 (some (vStr "indicator"))).setCell 1 2 (some (vStr "last date"))

/-- `MetadataWriter.__init__`: write the headers, then scan the sheet into
the in-memory mapping. -/
def MetadataWriter.new (s : Sheet) : Option (Sheet × MetaDict) :=
  (MetadataWriter.getIndicatorLastDate (MetadataWriter.writeHeaders s)).map
    (fun m => (MetadataWriter.writeHeaders s, m))

/-- Insertion into a key-sorted item list, used to model Python `sorted`. -/
def insertSortedItem (p : Int × Option Date) :
    List (Int × Option Date) → List (Int × Option Date)
  | [] => [p]
  | q :: rest => if p.1 ≤ q.1 then p :: q :: rest else q :: insertSortedItem p rest

/-- Python `sorted(dict.items())`: the items in ascending key order (dict
keys are unique, so the tuple comparison is decided by the key alone). -/
def sortedItems (m : MetaDict) : List (Int × Option Date) :=
  m.foldr insertSortedItem []

/-- The write loop of `MetadataWriter.write_indicators_last_date`: one
(identifier, date) pair per row, starting at `row`; a `None` date writes an
empty cell. -/
def flushLoop : List (Int × Option Date) → Nat → Sheet → Sheet
  | [], _, s => s
  | (k, v) :: rest, row, s =>
      flushLoop rest (row + 1)
        ((s.setCell row 1 (some (vInt k))).setCell row 2 (v.map vDate))

/-- `MetadataWriter.write_indicators_last_date`: write the in-memory mapping
in ascending identifier order, one row per identifier from row 2 on. -/
def MetadataWriter.writeIndicatorsLastDate (s : Sheet) (m : MetaDict) : Sheet :=
  flushLoop (sortedItems m) 2 s

/-- Which concrete writer class a worksheet-properties entry names. -/
inductive WriterKind where
  | selic
  | cdi
  | ipca
  | tr
  | metadata
deriving DecidableEq, Repr

/-- One entry of `IndicatorsWorkbook._worksheet_properties`. -/
structure WsProps where
  name : String
  color : String
  writer : WriterKind
  state : String
deriving DecidableEq, Repr

/-- `IndicatorsWorkbook._worksheet_properties`: the closed, static indicator
registry; `none` models the `KeyError` raised on an unknown code. -/
def worksheetProperties (code : Int) : Option WsProps :=
  if code = -1 then some ⟨"metadata", "000000", WriterKind.metadata, "veryHidden"⟩
  else if code = 11 then some ⟨"selic", "0000FF", WriterKind.selic, "visible"⟩
  else if code = 12 then some ⟨"cdi", "00FF00", WriterKind.cdi, "visible"⟩
  else if code = 433 then some ⟨"ipca", "FFA500", WriterKind.ipca, "visible"⟩
  else if code = 226 then some ⟨"tr", "FF0000", WriterKind.tr, "visible"⟩
  else none

/-- Run the writer class named by a registry entry on a worksheet, as
`writer(ws, records)` does.  `MetadataWriter.__init__` takes no records
argument, so calling it this way raises `TypeError` (`none`). -/
def runWriterKind : WriterKind → Sheet → List IndicatorRecord → Option Sheet
  | WriterKind.selic => runWriter selicSpec
  | WriterKind.cdi => runWriter cdiSpec
  | WriterKind.ipca => runWriter ipcaSpec
  | WriterKind.tr => runWriter trSpec
  | WriterKind.metadata => fun _ _ => none

/-- Named-sheet map update used by the workbook. -/
def sheetsSet (name : String) (ws : Sheet) :
    List (String × Sheet) → List (String × Sheet)
  | [] => [(name, ws)]
  | (n, w) :: rest =>
      if name = n then (name, ws) :: rest else (n, w) :: sheetsSet name ws rest

/-- Named-sheet map lookup used by the workbook. -/
def sheetsLookup (name : String) : List (String × Sheet) → Option Sheet
  | [] => none
  | (n, w) :: rest => if n = name then some w else sheetsLookup name rest

/-- The in-memory state of an `IndicatorsWorkbook`: its named worksheets and
the metadata mapping held by its `MetadataWriter`. -/
structure Workbook where
  sheets : List (String × Sheet)
  meta : MetaDict

/-- `IndicatorsWorkbook.get_indicator_last_date`: look the code up in the
in-memory metadata mapping; the `KeyError` on an unknown code is caught and
`None` is returned.  The registry is never consulted. -/
def IndicatorsWorkbook.getIndicatorLastDate (m : MetaDict) (indicatorCode : Int) :
    Option Date :=
  match dictLookup indicatorCode m with
  | none => none
  | some v => v

/-- `IndicatorsWorkbook.write_records`: resolve the registry entry (an
unknown code raises `KeyError`, aborting), create or load the named
worksheet, run the matching writer on it, then record
`last_non_extended_date` in the in-memory metadata mapping. -/
def IndicatorsWorkbook.writeRecords (wb : Workbook) (indicatorCode : Int)
    (records : List IndicatorRecord) (lastNonExtendedDate : Option Date) :
    Option Workbook :=
  match worksheetProperties indicatorCode with
  | none => none
  | some props =>
      match runWriterKind props.writer
          ((sheetsLookup props.name wb.sheets).getD Sheet.empty) records with
      | none => none
      | some ws' =>
          some ⟨sheetsSet props.name ws' wb.sheets,
            dictInsert indicatorCode lastNonExtendedDate wb.meta⟩

/-- The value the metadata scan associates with identifier `j`: the date
cell of the lowest row among rows 2 … r whose identifier cell parses to `j`
(the downward scan processes lower rows later, so they overwrite higher
ones), or `none` when no such row exists. -/
def rowsLookup (s : Sheet) (j : Int) : Nat → Option (Option Date)
  | 0 => none
  | 1 => none
  | (r + 2) =>
      match rowsLookup s j (r + 1) with
      | some v => some v
      | none =>
          match pyIntCell (s.getCell (r + 2) 1) with
          | PyIntResult.ok c =>
              if c = j then some (pyDateCell (s.getCell (r + 2) 2)) else none
          | _ => none

def c2Sheet : Sheet :=
  ((Sheet.empty.setCell 2 1 (some (vDate ⟨2024, 1, 2⟩))).setCell 3 1
    (some (vDate ⟨2024, 1, 3⟩))).setCell 4 1 (some (vDate ⟨2024, 1, 4⟩))

def c2Dates (r : Nat) : Date :=
  if r = 2 then ⟨2024, 1, 2⟩ else if r = 3 then ⟨2024, 1, 3⟩ else ⟨2024, 1, 4⟩

def c4Sheet : Sheet :=
  (((Sheet.empty.setCell 2 1 (some (vInt 2023))).setCell 2 2
    (some (vInt 5))).setCell 3 1 (some (vInt 2023))).setCell 3 2 (some (vInt 6))

def c7BadSheet : Sheet :=
  (Sheet.empty.setCell 2 1 (some (vStr "abc"))).setCell 2 2
    (some (vDate ⟨2024, 1, 2⟩))

def c7NullSheet : Sheet :=
  (Sheet.empty.setCell 2 1 (some (vInt 11))).setCell 2 2 none

def c7SkipSheet : Sheet :=
  (c7NullSheet.setCell 3 1 (some (vDate ⟨2024, 1, 2⟩))).setCell 3 2
    (some (vDate ⟨2024, 1, 3⟩))

def c8OldSheet : Sheet :=
  (((Sheet.empty.setCell 2 1 (some (vInt 11))).setCell 2 2
    (some (vDate ⟨2024, 1, 2⟩))).setCell 3 1 (some (vInt 12))).setCell 3 2
    (some (vDate ⟨2024, 1, 3⟩))

def c1Sheet : Sheet :=
  ((((((((Sheet.empty.setCell 2 1 (some (vDate ⟨2024, 1, 2⟩))).setCell 2 2
    (some (vNum 1))).setCell 2 3 (some (vNum 1))).setCell 3 1
    (some (vDate ⟨2024, 1, 3⟩))).setCell 3 2 (some (vNum 1))).setCell 3 3
    (some (vNum 1))).setCell 4 1 (some (vDate ⟨2024, 1, 4⟩))).setCell 5 1
    (some (vDate ⟨2024, 1, 5⟩))).setCell 6 1 (some (vDate ⟨2024, 1, 6⟩))

def c1e1 : IndicatorRecord := ⟨⟨2024, 1, 4⟩, 1, none⟩

def c1e2 : IndicatorRecord := ⟨⟨2024, 1, 5⟩, 2, none⟩

def c1e3 : IndicatorRecord := ⟨⟨2024, 1, 6⟩, 3, none⟩

def c1e4 : IndicatorRecord := ⟨⟨2024, 1, 7⟩, 4, none⟩

def c5r1 : IndicatorRecord := ⟨⟨2023, 6, 15⟩, 1, none⟩

def c5r2 : IndicatorRecord := ⟨⟨2023, 7, 15⟩, 2, none⟩

def c5w1 : IndicatorRecord := ⟨⟨2024, 1, 2⟩, 1, none⟩

def c5w2 : IndicatorRecord := ⟨⟨2024, 1, 3⟩, 2, none⟩

theorem Date.ltb_iff {a b : Date} : a.ltb b = true ↔
    (a.year < b.year ∨ (a.year = b.year ∧ (a.month < b.month ∨
      (a.month = b.month ∧ a.day < b.day)))) := by
  simp [Date.ltb]

theorem Date.ltb_eq_false_iff {a b : Date} : a.ltb b = false ↔
    ¬ (a.year < b.year ∨ (a.year = b.year ∧ (a.month < b.month ∨
      (a.month = b.month ∧ a.day < b.day)))) := by
  rw [← Bool.not_eq_true, Date.ltb_iff]

theorem Date.ltb_trans {a b c : Date} (h1 : a.ltb b = true) (h2 : b.ltb c = true) :
    a.ltb c = true := by
  rw [Date.ltb_iff] at *
  rcases a with ⟨ay, am, ad⟩
  rcases b with ⟨by_, bm, bd⟩
  rcases c with ⟨cy, cm, cd⟩
  simp only at *
  omega

theorem Date.ltb_asymm {a b : Date} (h : a.ltb b = true) : b.ltb a = false := by
  rw [Date.ltb_iff] at h
  rw [Date.ltb_eq_false_iff]
  rcases a with ⟨ay, am, ad⟩
  rcases b with ⟨by_, bm, bd⟩
  simp only at *
  omega

theorem Date.ne_of_ltb {a b : Date} (h : a.ltb b = true) : a ≠ b := by
  rintro rfl
  rw [Date.ltb_iff] at h
  omega

theorem Date.ltb_total {a b : Date} (h : a ≠ b) :
    a.ltb b = true ∨ b.ltb a = true := by
  rcases a with ⟨ay, am, ad⟩
  rcases b with ⟨by_, bm, bd⟩
  simp only [ne_eq, Date.mk.injEq, not_and] at h
  simp only [Date.ltb_iff]
  by_cases hy : ay = by_
  · by_cases hm : am = bm
    · have hd : ad ≠ bd := by intro hd; exact h hy hm hd
      omega
    · omega
  · omega

theorem Sheet.getCell_setCell (s : Sheet) (r c r' c' : Nat) (v : Option CellValue) :
    (s.setCell r c v).getCell r' c' =
      if r = r' ∧ c = c' then v else s.getCell r' c' := by
  simp only [Sheet.setCell, Sheet.getCell, cellsGet]
  split
  · next h => rw [if_pos (Prod.ext_iff.mp h)]
  · next h => rw [if_neg (fun hc => h (Prod.ext_iff.mpr hc))]

theorem Sheet.maxRow_setCell (s : Sheet) (r c : Nat) (v : Option CellValue) :
    (s.setCell r c v).maxRow = max r s.maxRow := rfl

theorem Sheet.maxCol_setCell (s : Sheet) (r c : Nat) (v : Option CellValue) :
    (s.setCell r c v).maxCol = max c s.maxCol := rfl

theorem Sheet.one_le_maxRow (s : Sheet) : 1 ≤ s.maxRow := by
  rcases s with ⟨cells⟩
  induction cells with
  | nil => simp [Sheet.maxRow]
  | cons e rest ih =>
      simp only [Sheet.maxRow, List.foldr] at *
      omega

theorem Sheet.getCell_of_maxRow_lt (s : Sheet) (r c : Nat) (h : s.maxRow < r) :
    s.getCell r c = none := by
  rcases s with ⟨cells⟩
  induction cells with
  | nil => rfl
  | cons e rest ih =>
      simp only [Sheet.maxRow, List.foldr, Sheet.getCell, cellsGet] at *
      rw [if_neg]
      · exact ih (by omega)
      · intro he
        have : e.1.1 = r := by rw [he]
        omega

theorem Sheet.maxRow_empty : Sheet.empty.maxRow = 1 := rfl

theorem locateAux_skip (readKey : Nat → Option Date) (fd : Date) (k : Nat)
    (hk : 2 ≤ k) :
    ∀ m, k ≤ m →
    (∀ r, k < r → r ≤ m →
      ∃ dr, readKey r = some dr ∧ dr ≠ fd ∧ dr.ltb fd = false) →
    locateAux readKey fd m = locateAux readKey fd k := by
  intro m
  induction m with
  | zero => intro h _; omega
  | succ m ih =>
      intro hkm habove
      by_cases hEq : k = m + 1
      · rw [hEq]
      · obtain ⟨r, hr⟩ : ∃ r, m + 1 = r + 2 := ⟨m - 1, by omega⟩
        rw [hr]
        obtain ⟨dr, hread, hne, hlt⟩ := habove (r + 2) (by omega) (by omega)
        simp only [locateAux, hread]
        rw [if_neg hne, if_neg (by simp [hlt])]
        have hrm : r + 1 = m := by omega
        rw [hrm]
        exact ih (by omega) (fun r' h1 h2 => habove r' h1 (by omega))

theorem locateAux_found (readKey : Nat → Option Date) (fd : Date) (k : Nat)
    (hk : 2 ≤ k) (hread : readKey k = some fd) :
    locateAux readKey fd k = some k := by
  obtain ⟨r, rfl⟩ : ∃ r, k = r + 2 := ⟨k - 2, by omega⟩
  simp [locateAux, hread]

theorem locateAux_less (readKey : Nat → Option Date) (fd : Date) (k : Nat)
    (hk : 2 ≤ k) (d : Date) (hread : readKey k = some d) (hne : d ≠ fd)
    (hlt : d.ltb fd = true) :
    locateAux readKey fd k = some (k + 1) := by
  obtain ⟨r, rfl⟩ : ∃ r, k = r + 2 := ⟨k - 2, by omega⟩
  simp [locateAux, hread, hne, hlt]

theorem locateAux_all_above (readKey : Nat → Option Date) (fd : Date) :
    ∀ m,
    (∀ r, 2 ≤ r → r ≤ m →
      ∃ dr, readKey r = some dr ∧ dr ≠ fd ∧ dr.ltb fd = false) →
    locateAux readKey fd m = some 1 := by
  intro m
  induction m with
  | zero => intro _; rfl
  | succ m ih =>
      intro h
      by_cases hm : m = 0
      · subst hm; rfl
      · obtain ⟨r, hr⟩ : ∃ r, m + 1 = r + 2 := ⟨m - 1, by omega⟩
        rw [hr]
        obtain ⟨dr, hread, hne, hlt⟩ := h (r + 2) (by omega) (by omega)
        simp only [locateAux, hread]
        rw [if_neg hne, if_neg (by simp [hlt])]
        have hrm : r + 1 = m := by omega
        rw [hrm]
        exact ih (fun r' h1 h2 => h r' h1 (by omega))

theorem getCell_writeCellsRow (vs : List (Option CellValue)) :
    ∀ (s : Sheet) (r c0 r' c' : Nat),
    (writeCellsRow s r c0 vs).getCell r' c' =
      if r' = r ∧ c0 ≤ c' ∧ c' < c0 + vs.length then vs.getD (c' - c0) none
      else s.getCell r' c' := by
  induction vs with
  | nil =>
      intro s r c0 r' c'
      simp only [writeCellsRow, List.length_nil]
      rw [if_neg (by rintro ⟨_, h2, h3⟩; omega)]
  | cons v vs ih =>
      intro s r c0 r' c'
      simp only [writeCellsRow]
      rw [ih]
      by_cases h1 : r' = r ∧ c0 + 1 ≤ c' ∧ c' < c0 + 1 + vs.length
      · obtain ⟨hr, hc1, hc2⟩ := h1
        rw [if_pos ⟨hr, hc1, hc2⟩,
          if_pos ⟨hr, by omega, by simp only [List.length_cons]; omega⟩]
        have hcc : c' - c0 = (c' - (c0 + 1)) + 1 := by omega
        rw [hcc, List.getD_cons_succ]
      · rw [if_neg h1, Sheet.getCell_setCell]
        by_cases h2 : r' = r ∧ c0 ≤ c' ∧ c' < c0 + (v :: vs).length
        · obtain ⟨hr, hc1, hc2⟩ := h2
          have hcc : c' = c0 := by
            simp only [List.length_cons] at hc2
            by_contra hne
            exact h1 ⟨hr, by omega, by omega⟩
          rw [if_pos ⟨hr.symm, hcc.symm⟩, if_pos ⟨hr, hc1, hc2⟩]
          rw [hcc, Nat.sub_self, List.getD_cons_zero]
        · rw [if_neg h2, if_neg]
          rintro ⟨ha, hb⟩
          exact h2 ⟨ha.symm, by omega, by simp only [List.length_cons]; omega⟩

theorem maxRow_writeCellsRow (vs : List (Option CellValue)) :
    ∀ (s : Sheet) (r c0 : Nat), vs ≠ [] →
    (writeCellsRow s r c0 vs).maxRow = max r s.maxRow := by
  induction vs with
  | nil => intro _ _ _ h; exact absurd rfl h
  | cons v vs ih =>
      intro s r c0 _
      by_cases hvs : vs = []
      · subst hvs
        simp only [writeCellsRow]
        rw [Sheet.maxRow_setCell]
      · simp only [writeCellsRow]
        rw [ih _ _ _ hvs, Sheet.maxRow_setCell]
        omega

theorem getCell_writeRecordsLoop_outside
    (format : IndicatorRecord → List (Option CellValue)) (recs : List IndicatorRecord) :
    ∀ (fr : Nat) (s : Sheet) (r' c' : Nat),
    (r' < fr ∨ fr + recs.length ≤ r') →
    (writeRecordsLoop format recs fr s).getCell r' c' = s.getCell r' c' := by
  induction recs with
  | nil => intro _ _ _ _ _; rfl
  | cons rec rest ih =>
      intro fr s r' c' h
      have hlen : (rec :: rest).length = rest.length + 1 := by simp
      simp only [writeRecordsLoop]
      rw [ih (fr + 1) _ r' c' (by omega)]
      rw [getCell_writeCellsRow]
      rw [if_neg (by rintro ⟨h1, _⟩; omega)]

theorem getCell_writeRecordsLoop_at
    (format : IndicatorRecord → List (Option CellValue)) (recs : List IndicatorRecord) :
    ∀ (fr : Nat) (s : Sheet) (i c' : Nat), i < recs.length →
    (writeRecordsLoop format recs fr s).getCell (fr + i) c' =
      if 1 ≤ c' ∧ c' < 1 + (format (recs.getD i defaultRecord)).length
      then (format (recs.getD i defaultRecord)).getD (c' - 1) none
      else s.getCell (fr + i) c' := by
  induction recs with
  | nil => intro _ _ i _ h; simp at h
  | cons rec rest ih =>
      intro fr s i c' hi
      simp only [writeRecordsLoop]
      match i with
      | 0 =>
          rw [getCell_writeRecordsLoop_outside format rest (fr + 1) _ _ c' (by omega)]
          rw [getCell_writeCellsRow]
          simp only [List.getD_cons_zero]
          by_cases hc : 1 ≤ c' ∧ c' < 1 + (format rec).length
          · rw [if_pos ⟨by omega, hc.1, hc.2⟩, if_pos hc]
          · rw [if_neg (by rintro ⟨_, h1, h2⟩; exact hc ⟨h1, h2⟩), if_neg hc]
      | j + 1 =>
          have hj : j < rest.length := by simp only [List.length_cons] at hi; omega
          have hadd : fr + (j + 1) = (fr + 1) + j := by omega
          rw [hadd, ih (fr + 1) _ j c' hj]
          simp only [List.getD_cons_succ]
          by_cases hc : 1 ≤ c' ∧ c' < 1 + (format (rest.getD j defaultRecord)).length
          · rw [if_pos hc, if_pos hc]
          · rw [if_neg hc, if_neg hc]
            rw [getCell_writeCellsRow]
            rw [if_neg (by rintro ⟨h1, _⟩; omega)]

theorem maxRow_writeRecordsLoop
    (format : IndicatorRecord → List (Option CellValue))
    (hne : ∀ rec, format rec ≠ []) (recs : List IndicatorRecord) :
    ∀ (fr : Nat) (s : Sheet), recs ≠ [] →
    (writeRecordsLoop format recs fr s).maxRow = max s.maxRow (fr + recs.length - 1) := by
  induction recs with
  | nil => intro _ _ h; exact absurd rfl h
  | cons rec rest ih =>
      intro fr s _
      simp only [writeRecordsLoop, List.length_cons]
      by_cases hrest : rest = []
      · subst hrest
        simp only [writeRecordsLoop, List.length_nil]
        rw [maxRow_writeCellsRow _ _ _ _ (hne rec)]
        omega
      · rw [ih (fr + 1) _ hrest, maxRow_writeCellsRow _ _ _ _ (hne rec)]
        omega

theorem eraseExtraRecords_of_maxRow_lt (s : Sheet) (row : Nat)
    (h : s.maxRow < row) : eraseExtraRecords s row = s := by
  unfold eraseExtraRecords
  have h0 : s.maxRow + 1 - row = 0 := by omega
  rw [h0]
  rfl

theorem dictLookup_dictInsert_self (k : Int) (v : Option Date) (m : MetaDict) :
    dictLookup k (dictInsert k v m) = some v := by
  induction m with
  | nil => simp [dictInsert, dictLookup]
  | cons p rest ih =>
      obtain ⟨k', v'⟩ := p
      simp only [dictInsert]
      by_cases h : k = k'
      · rw [if_pos h]
        simp [dictLookup]
      · rw [if_neg h]
        simp only [dictLookup]
        rw [if_neg (fun he => h he.symm), ih]

theorem dictLookup_dictInsert_ne (k j : Int) (v : Option Date) (m : MetaDict)
    (h : k ≠ j) : dictLookup j (dictInsert k v m) = dictLookup j m := by
  induction m with
  | nil => simp [dictInsert, dictLookup, h]
  | cons p rest ih =>
      obtain ⟨k', v'⟩ := p
      simp only [dictInsert]
      by_cases hk : k = k'
      · rw [if_pos hk]
        simp only [dictLookup]
        rw [if_neg (hk ▸ h), if_neg (fun he => h (hk.trans he))]
      · rw [if_neg hk]
        simp only [dictLookup]
        by_cases hj : k' = j
        · rw [if_pos hj, if_pos hj]
        · rw [if_neg hj, if_neg hj, ih]

theorem mem_dictInsert_self (k : Int) (v : Option Date) (m : MetaDict) :
    (k, v) ∈ dictInsert k v m := by
  induction m with
  | nil => simp [dictInsert]
  | cons p rest ih =>
      obtain ⟨k', v'⟩ := p
      simp only [dictInsert]
      by_cases h : k = k'
      · rw [if_pos h]; exact List.mem_cons_self _ _
      · rw [if_neg h]; exact List.mem_cons_of_mem _ ih

theorem mem_keys_dictInsert (j k : Int) (v : Option Date) (m : MetaDict) :
    j ∈ (dictInsert k v m).map Prod.fst ↔ j = k ∨ j ∈ m.map Prod.fst := by
  induction m with
  | nil => simp [dictInsert]
  | cons p rest ih =>
      obtain ⟨k', v'⟩ := p
      simp only [dictInsert]
      by_cases h : k = k'
      · rw [if_pos h]
        subst h
        simp
      · rw [if_neg h]
        simp only [List.map_cons, List.mem_cons, ih]
        tauto

theorem nodupKeys_dictInsert (k : Int) (v : Option Date) (m : MetaDict)
    (h : (m.map Prod.fst).Nodup) : ((dictInsert k v m).map Prod.fst).Nodup := by
  induction m with
  | nil => simp [dictInsert]
  | cons p rest ih =>
      obtain ⟨k', v'⟩ := p
      simp only [List.map_cons, List.nodup_cons] at h
      simp only [dictInsert]
      by_cases hk : k = k'
      · rw [if_pos hk]
        subst hk
        simp only [List.map_cons, List.nodup_cons]
        exact h
      · rw [if_neg hk]
        simp only [List.map_cons, List.nodup_cons]
        refine ⟨fun hmem => ?_, ih h.2⟩
        rw [mem_keys_dictInsert] at hmem
        rcases hmem with h1 | h1
        · exact hk (h1.symm)
        · exact h.1 h1

theorem dictLookup_eq_none (j : Int) (m : MetaDict)
    (h : ∀ p ∈ m, p.1 ≠ j) : dictLookup j m = none := by
  induction m with
  | nil => rfl
  | cons p rest ih =>
      obtain ⟨k', v'⟩ := p
      simp only [dictLookup]
      rw [if_neg (h (k', v') (List.mem_cons_self _ _))]
      exact ih (fun p hp => h p (List.mem_cons_of_mem _ hp))

theorem dictLookup_of_mem_nodup (j : Int) (v : Option Date) (m : MetaDict)
    (hnd : (m.map Prod.fst).Nodup) (hmem : (j, v) ∈ m) :
    dictLookup j m = some v := by
  induction m with
  | nil => simp at hmem
  | cons p rest ih =>
      obtain ⟨k', v'⟩ := p
      simp only [List.map_cons, List.nodup_cons] at hnd
      rcases List.mem_cons.mp hmem with h1 | h1
      · injection h1 with h1a h1b
        subst h1a
        subst h1b
        simp [dictLookup]
      · simp only [dictLookup]
        rw [if_neg (fun he => hnd.1 (List.mem_map.mpr ⟨(j, v), h1, he.symm⟩)),
          ih hnd.2 h1]

theorem loadMetaAux_lookup (s : Sheet) :
    ∀ (r : Nat) (d0 dF : MetaDict), loadMetaAux s r d0 = some dF →
    ∀ j, dictLookup j dF =
      (match rowsLookup s j r with
       | some v => some v
       | none => dictLookup j d0) := by
  intro r
  induction r with
  | zero =>
      intro d0 dF hload j
      simp only [loadMetaAux, Option.some.injEq] at hload
      subst hload
      rfl
  | succ r ih =>
      intro d0 dF hload j
      match r, ih with
      | 0, _ =>
          simp only [loadMetaAux, Option.some.injEq] at hload
          subst hload
          rfl
      | (r + 1), ih =>
          simp only [loadMetaAux] at hload
          simp only [rowsLookup]
          cases h1 : pyIntCell (s.getCell (r + 2) 1) with
          | typeErr =>
              rw [h1] at hload
              rw [ih _ _ hload j]
              cases hr : rowsLookup s j (r + 1) <;> simp
          | valueErr =>
              rw [h1] at hload
              exact absurd hload (by simp)
          | ok cod =>
              rw [h1] at hload
              rw [ih _ _ hload j]
              cases hr : rowsLookup s j (r + 1) with
              | some v => simp
              | none =>
                  simp only
                  by_cases hc : cod = j
                  · subst hc
                    rw [if_pos rfl, dictLookup_dictInsert_self]
                  · rw [if_neg hc, dictLookup_dictInsert_ne _ _ _ _ hc]

theorem loadMetaAux_isSome (s : Sheet) :
    ∀ (r : Nat) (d0 : MetaDict),
    (∀ r', 2 ≤ r' → r' ≤ r → pyIntCell (s.getCell r' 1) ≠ PyIntResult.valueErr) →
    ∃ dF, loadMetaAux s r d0 = some dF := by
  intro r
  induction r with
  | zero => intro d0 _; exact ⟨d0, rfl⟩
  | succ r ih =>
      intro d0 hok
      match r, ih with
      | 0, _ => exact ⟨d0, rfl⟩
      | (r + 1), ih =>
          simp only [loadMetaAux]
          cases h1 : pyIntCell (s.getCell (r + 2) 1) with
          | typeErr => exact ih d0 (fun r' h2 h3 => hok r' h2 (by omega))
          | valueErr => exact absurd h1 (hok (r + 2) (by omega) (by omega))
          | ok cod =>
              exact ih _ (fun r' h2 h3 => hok r' h2 (by omega))

theorem loadMetaAux_no_valueErr (s : Sheet) :
    ∀ (r : Nat) (d0 dF : MetaDict), loadMetaAux s r d0 = some dF →
    ∀ r', 2 ≤ r' → r' ≤ r → pyIntCell (s.getCell r' 1) ≠ PyIntResult.valueErr := by
  intro r
  induction r with
  | zero => intro d0 dF _ r' h2 h3; omega
  | succ r ih =>
      intro d0 dF hload r' h2 h3
      match r, ih with
      | 0, _ => omega
      | (r + 1), ih =>
          simp only [loadMetaAux] at hload
          cases h1 : pyIntCell (s.getCell (r + 2) 1) with
          | typeErr =>
              rw [h1] at hload
              by_cases hr : r' = r + 2
              · rw [hr, h1]; simp
              · exact ih _ _ hload r' h2 (by omega)
          | valueErr =>
              rw [h1] at hload
              exact absurd hload (by simp)
          | ok cod =>
              rw [h1] at hload
              by_cases hr : r' = r + 2
              · rw [hr, h1]; simp
              · exact ih _ _ hload r' h2 (by omega)

theorem loadMetaAux_nodupKeys (s : Sheet) :
    ∀ (r : Nat) (d0 dF : MetaDict), (d0.map Prod.fst).Nodup →
    loadMetaAux s r d0 = some dF → (dF.map Prod.fst).Nodup := by
  intro r
  induction r with
  | zero =>
      intro d0 dF hnd hload
      simp only [loadMetaAux, Option.some.injEq] at hload
      subst hload
      exact hnd
  | succ r ih =>
      intro d0 dF hnd hload
      match r, ih with
      | 0, _ =>
          simp only [loadMetaAux, Option.some.injEq] at hload
          subst hload
          exact hnd
      | (r + 1), ih =>
          simp only [loadMetaAux] at hload
          cases h1 : pyIntCell (s.getCell (r + 2) 1) with
          | typeErr => rw [h1] at hload; exact ih _ _ hnd hload
          | valueErr => rw [h1] at hload; exact absurd hload (by simp)
          | ok cod =>
              rw [h1] at hload
              exact ih _ _ (nodupKeys_dictInsert _ _ _ hnd) hload

theorem rowsLookup_mono (s : Sheet) (j : Int) (r : Nat) (v : Option Date)
    (h : rowsLookup s j r = some v) :
    ∀ r', r ≤ r' → rowsLookup s j r' = some v := by
  intro r'
  induction r' with
  | zero =>
      intro hr
      rw [show r = 0 by omega] at h
      exact absurd h (by simp [rowsLookup])
  | succ r' ih =>
      intro hr
      by_cases he : r = r' + 1
      · rw [← he]; exact h
      · have h2 : r ≤ r' := by omega
        cases r' with
        | zero =>
            rw [show r = 0 by omega] at h
            exact absurd h (by simp [rowsLookup])
        | succ r'' =>
            have hres := ih h2
            simp only [rowsLookup, hres]

theorem rowsLookup_none (s : Sheet) (j : Int) :
    ∀ r,
    (∀ r', 2 ≤ r' → r' ≤ r →
      ∀ c, pyIntCell (s.getCell r' 1) = PyIntResult.ok c → c ≠ j) →
    rowsLookup s j r = none := by
  intro r
  induction r with
  | zero => intro _; rfl
  | succ r ih =>
      intro h
      match r, ih with
      | 0, _ => rfl
      | (r + 1), ih =>
          have hnone : rowsLookup s j (r + 1) = none :=
            ih (fun r' h2 h3 c hc => h r' h2 (by omega) c hc)
          simp only [rowsLookup, hnone]
          cases hc : pyIntCell (s.getCell (r + 2) 1) with
          | ok c => simp [h (r + 2) (by omega) (by omega) c hc]
          | typeErr => simp
          | valueErr => simp

theorem rowsLookup_found (s : Sheet) (j : Int) (rid : Nat) (h2 : 2 ≤ rid)
    (hbelow : ∀ r', 2 ≤ r' → r' < rid →
      ∀ c, pyIntCell (s.getCell r' 1) = PyIntResult.ok c → c ≠ j)
    (hok : pyIntCell (s.getCell rid 1) = PyIntResult.ok j) :
    rowsLookup s j rid = some (pyDateCell (s.getCell rid 2)) := by
  obtain ⟨r, rfl⟩ : ∃ r, rid = r + 2 := ⟨rid - 2, by omega⟩
  have hnone : rowsLookup s j (r + 1) = none :=
    rowsLookup_none s j (r + 1) (fun r' ha hb c hc => hbelow r' ha (by omega) c hc)
  simp [rowsLookup, hnone, hok]

theorem getCell_flushLoop_outside (items : List (Int × Option Date)) :
    ∀ (row : Nat) (s : Sheet) (r' c' : Nat),
    (r' < row ∨ row + items.length ≤ r') →
    (flushLoop items row s).getCell r' c' = s.getCell r' c' := by
  induction items with
  | nil => intros; rfl
  | cons p rest ih =>
      obtain ⟨k, v⟩ := p
      intro row s r' c' h
      have hlen : ((k, v) :: rest).length = rest.length + 1 := by simp
      simp only [flushLoop]
      rw [ih (row + 1) _ r' c' (by omega)]
      rw [Sheet.getCell_setCell, Sheet.getCell_setCell]
      rw [if_neg (by rintro ⟨h1, _⟩; omega), if_neg (by rintro ⟨h1, _⟩; omega)]

theorem getCell_flushLoop_at (items : List (Int × Option Date)) :
    ∀ (row : Nat) (s : Sheet) (i : Nat), i < items.length →
    (flushLoop items row s).getCell (row + i) 1 =
        some (vInt (items.getD i (0, none)).1) ∧
      (flushLoop items row s).getCell (row + i) 2 =
        ((items.getD i (0, none)).2).map vDate := by
  induction items with
  | nil => intro _ _ i h; simp at h
  | cons p rest ih =>
      obtain ⟨k, v⟩ := p
      intro row s i hi
      simp only [flushLoop]
      match i with
      | 0 =>
          rw [getCell_flushLoop_outside rest (row + 1) _ _ 1 (by omega),
            getCell_flushLoop_outside rest (row + 1) _ _ 2 (by omega)]
          rw [Sheet.getCell_setCell, Sheet.getCell_setCell, Sheet.getCell_setCell]
          rw [if_neg (by rintro ⟨_, hx⟩; omega), if_pos ⟨by omega, rfl⟩,
            if_pos ⟨by omega, rfl⟩]
          simp
      | j + 1 =>
          have hj : j < rest.length := by simp only [List.length_cons] at hi; omega
          have hadd : row + (j + 1) = (row + 1) + j := by omega
          rw [hadd]
          rcases ih (row + 1) _ j hj with ⟨ih1, ih2⟩
          rw [ih1, ih2]
          simp

theorem maxRow_flushLoop (items : List (Int × Option Date)) :
    ∀ (row : Nat) (s : Sheet), items ≠ [] →
    (flushLoop items row s).maxRow = max s.maxRow (row + items.length - 1) := by
  induction items with
  | nil => intro _ _ h; exact absurd rfl h
  | cons p rest ih =>
      obtain ⟨k, v⟩ := p
      intro row s _
      simp only [flushLoop, List.length_cons]
      by_cases hrest : rest = []
      · subst hrest
        simp only [flushLoop, List.length_nil]
        rw [Sheet.maxRow_setCell, Sheet.maxRow_setCell]
        omega
      · rw [ih (row + 1) _ hrest, Sheet.maxRow_setCell, Sheet.maxRow_setCell]
        omega

theorem insertSortedItem_perm (p : Int × Option Date)
    (l : List (Int × Option Date)) : (insertSortedItem p l).Perm (p :: l) := by
  induction l with
  | nil => exact List.Perm.refl _
  | cons q rest ih =>
      simp only [insertSortedItem]
      by_cases h : p.1 ≤ q.1
      · rw [if_pos h]
      · rw [if_neg h]
        exact (List.Perm.cons q ih).trans (List.Perm.swap p q rest)

theorem sortedItems_perm (m : MetaDict) : (sortedItems m).Perm m := by
  induction m with
  | nil => exact List.Perm.refl _
  | cons p rest ih =>
      simp only [sortedItems, List.foldr] at ih ⊢
      exact (insertSortedItem_perm _ _).trans (List.Perm.cons p ih)

theorem insertSortedItem_pairwise (p : Int × Option Date)
    (l : List (Int × Option Date))
    (h : l.Pairwise (fun a b => a.1 ≤ b.1)) :
    (insertSortedItem p l).Pairwise (fun a b => a.1 ≤ b.1) := by
  induction l with
  | nil => simp [insertSortedItem]
  | cons q rest ih =>
      rcases List.pairwise_cons.mp h with ⟨hq, hrest⟩
      simp only [insertSortedItem]
      by_cases hle : p.1 ≤ q.1
      · rw [if_pos hle]
        refine List.pairwise_cons.mpr ⟨?_, h⟩
        intro b hb
        rcases List.mem_cons.mp hb with rfl | hb
        · exact hle
        · exact le_trans hle (hq b hb)
      · rw [if_neg hle]
        refine List.pairwise_cons.mpr ⟨?_, ih hrest⟩
        intro b hb
        have hmem := (insertSortedItem_perm p rest).mem_iff.mp hb
        rcases List.mem_cons.mp hmem with rfl | hb2
        · omega
        · exact hq b hb2

theorem sortedItems_pairwise (m : MetaDict) :
    (sortedItems m).Pairwise (fun a b => a.1 ≤ b.1) := by
  induction m with
  | nil => simp [sortedItems]
  | cons p rest ih =>
      simp only [sortedItems, List.foldr] at ih ⊢
      exact insertSortedItem_pairwise p _ ih

theorem Date.ltb_mk (y1 m1 d1 y2 m2 d2 : Int) :
    Date.ltb ⟨y1, m1, d1⟩ ⟨y2, m2, d2⟩ = true ↔
      (y1 < y2 ∨ (y1 = y2 ∧ (m1 < m2 ∨ (m1 = m2 ∧ d1 < d2)))) := by
  rw [Date.ltb_iff]

theorem Date.mk_ne (y1 m1 d1 y2 m2 d2 : Int)
    (h : ¬(y1 = y2 ∧ m1 = m2 ∧ d1 = d2)) :
    (⟨y1, m1, d1⟩ : Date) ≠ ⟨y2, m2, d2⟩ := by
  intro he
  injection he with h1 h2 h3
  exact h ⟨h1, h2, h3⟩

/-- C2: on a sheet whose data rows are sorted strictly ascending by the date
in column 1, scanning from `max_row` down to row 2, `_get_first_row` returns
the row whose date equals `first_date` when such a row exists; otherwise it
returns `r0 + 1` for the first scanned row `r0` whose date is strictly
earlier than `first_date`; and it returns 1 when no row satisfies either
stopping condition (in particular on an empty sheet). -/
theorem C2_get_first_row_cases (s : Sheet) (D : Nat → Date) (fd : Date)
    (hread : ∀ r < s.maxRow + 1, 2 ≤ r →
      readDateCell (s.getCell r 1) = some (D r))
    (hsort : ∀ r < s.maxRow + 1, ∀ r' < s.maxRow + 1, 2 ≤ r → r < r' →
      (D r).ltb (D r') = true) :
    (∀ rEq < s.maxRow + 1, 2 ≤ rEq → D rEq = fd →
      WorksheetWriter.getFirstRow s fd = some rEq) ∧
    ((∀ r < s.maxRow + 1, 2 ≤ r → D r ≠ fd) →
      ∀ r0 < s.maxRow + 1, 2 ≤ r0 → (D r0).ltb fd = true →
      (∀ r < s.maxRow + 1, r0 < r → (D r).ltb fd = false) →
      WorksheetWriter.getFirstRow s fd = some (r0 + 1)) ∧
    ((∀ r < s.maxRow + 1, 2 ≤ r → D r ≠ fd ∧ (D r).ltb fd = false) →
      WorksheetWriter.getFirstRow s fd = some 1) := by
  refine ⟨?_, ?_, ?_⟩
  · intro rEq hm h2 heq
    show locateAux (fun row => readDateCell (s.getCell row 1)) fd s.maxRow = some rEq
    rw [locateAux_skip _ fd rEq h2 s.maxRow (by omega) ?_]
    · exact locateAux_found _ fd rEq h2 (by rw [hread rEq hm h2, heq])
    · intro r h1 hr2
      have hlt : (D rEq).ltb (D r) = true := hsort rEq hm r (by omega) h2 h1
      rw [heq] at hlt
      exact ⟨D r, hread r (by omega) (by omega),
        fun he => (Date.ne_of_ltb hlt) he.symm, Date.ltb_asymm hlt⟩
  · intro hne r0 hm h2 hlt0 habove
    show locateAux (fun row => readDateCell (s.getCell row 1)) fd s.maxRow = some (r0 + 1)
    rw [locateAux_skip _ fd r0 h2 s.maxRow (by omega) ?_]
    · exact locateAux_less _ fd r0 h2 (D r0) (hread r0 hm h2)
        (hne r0 hm h2) hlt0
    · intro r h1 hr2
      exact ⟨D r, hread r (by omega) (by omega), hne r (by omega) (by omega),
        habove r (by omega) h1⟩
  · intro hall
    show locateAux (fun row => readDateCell (s.getCell row 1)) fd s.maxRow = some 1
    exact locateAux_all_above _ fd s.maxRow (fun r h2 hr =>
      ⟨D r, hread r (by omega) h2, (hall r (by omega) h2).1, (hall r (by omega) h2).2⟩)

/-- C2 witness: a three-row sorted sheet; the locator finds the matching
middle row. -/
theorem C2_get_first_row_cases_witness :
    (∀ r < c2Sheet.maxRow + 1, 2 ≤ r →
      readDateCell (c2Sheet.getCell r 1) = some (c2Dates r)) ∧
    WorksheetWriter.getFirstRow c2Sheet ⟨2024, 1, 3⟩ = some 3 :=
  ⟨by decide,
    (C2_get_first_row_cases c2Sheet c2Dates ⟨2024, 1, 3⟩ (by decide) (by decide)).1
      3 (by decide) (by decide) (by decide)⟩

/-- C3: the Selic and CDI formatters produce
`(date, value, 1 + round(value / 100, 8))` with exact-decimal half-even
rounding to 8 fractional digits; for value 0.065 the daily value is exactly
1.00065, and ties round to the even neighbour. -/
theorem C3_selic_cdi_rounding :
    (∀ rec : IndicatorRecord, SelicWriter.formatRecord rec =
      [some (vDate rec.date), some (vNum rec.value),
        some (vNum (1 + round8 (rec.value / 100)))]) ∧
    (∀ rec : IndicatorRecord, CdiWriter.formatRecord rec =
      [some (vDate rec.date), some (vNum rec.value),
        some (vNum (1 + round8 (rec.value / 100)))]) ∧
    round8 ((13 / 200 : ℚ) / 100) = 13 / 20000 ∧
    (∀ (d : Date) (e : Option Date),
      SelicWriter.formatRecord ⟨d, 13 / 200, e⟩ =
        [some (vDate d), some (vNum (13 / 200)), some (vNum (20013 / 20000))]) ∧
    round8 (1 / 200000000) = 0 ∧
    round8 (3 / 200000000) = 1 / 50000000 := by
  have hq65 : ((13 : ℚ) / 200 / 100 * 100000000) = 65000 := by norm_num
  have hr65 : round8 ((13 / 200 : ℚ) / 100) = 13 / 20000 := by
    rw [round8, hq65]
    norm_num [roundHalfEvenInt]
  have h65 : (1 : ℚ) + round8 (13 / 200 * 1 / 100) = 20013 / 20000 := by
    rw [mul_one, hr65]
    norm_num
  have hqA : ((1 : ℚ) / 200000000 * 100000000) = 1 / 2 := by norm_num
  have hrA : round8 (1 / 200000000) = 0 := by
    rw [round8, hqA]
    norm_num [roundHalfEvenInt]
  have hqB : ((3 : ℚ) / 200000000 * 100000000) = 3 / 2 := by norm_num
  have hrB : round8 (3 / 200000000) = 1 / 50000000 := by
    rw [round8, hqB]
    norm_num [roundHalfEvenInt]
  refine ⟨?_, ?_, hr65, ?_, hrA, hrB⟩
  · intro rec
    simp [SelicWriter.formatRecord, mul_one]
  · intro rec
    simp [CdiWriter.formatRecord, mul_one]
  · intro d e
    simp only [SelicWriter.formatRecord, mul_one, hr65]
    norm_num

/-- C10: the Selic and CDI writer variants are extensionally equal — same
headers `('date', 'value', 'daily_value')`, same formatted rows, and the
same resulting sheet for any input — and their registry entries differ only
in name, colour and code. -/
theorem C10_selic_cdi_equiv :
    SelicWriter.getHeaders = CdiWriter.getHeaders ∧
    SelicWriter.getHeaders = [vStr "date", vStr "value", vStr "daily_value"] ∧
    SelicWriter.formatRecord = CdiWriter.formatRecord ∧
    (∀ (s : Sheet) (records : List IndicatorRecord),
      runWriter selicSpec s records = runWriter cdiSpec s records) ∧
    (worksheetProperties 11).map WsProps.name = some "selic" ∧
    (worksheetProperties 12).map WsProps.name = some "cdi" ∧
    (worksheetProperties 11).map WsProps.writer = some WriterKind.selic ∧
    (worksheetProperties 12).map WsProps.writer = some WriterKind.cdi :=
  ⟨rfl, rfl, rfl, fun _ _ => rfl, by decide, by decide, by decide, by decide⟩

/-- C4 counterexample: the IPCA locator compares `date(year, month, 1)` with
the full target date, so a mid-month first date (2023-06-15) does not match
the (2023, 6) row: the locator answers the row after it, not the row
itself. -/
theorem C4_ipca_month_match_cex :
    IpcaWriter.getFirstRow c4Sheet ⟨2023, 6, 15⟩ = some 4 ∧
    IpcaWriter.getFirstRow c4Sheet ⟨2023, 6, 15⟩ ≠ some 3 := by decide

/-- C4 amended: on a sheet of ascending integer (year, month) rows
containing a (2023, 6) row, the IPCA locator returns that row's index
exactly when the earliest record's date is the first of the month,
2023-06-01 (for any later day of June the constructed key 2023-06-01 is
strictly earlier and the locator answers the following row instead). -/
theorem C4_ipca_month_match_amended (s : Sheet) (Y M : Nat → Int) (r0 : Nat)
    (hread : ∀ r < s.maxRow + 1, 2 ≤ r →
      s.getCell r 1 = some (vInt (Y r)) ∧ s.getCell r 2 = some (vInt (M r)))
    (hvalid : ∀ r < s.maxRow + 1, 2 ≤ r →
      1 ≤ Y r ∧ Y r ≤ 9999 ∧ 1 ≤ M r ∧ M r ≤ 12)
    (hsort : ∀ r < s.maxRow + 1, ∀ r' < s.maxRow + 1, 2 ≤ r → r < r' →
      (Y r < Y r' ∨ (Y r = Y r' ∧ M r < M r')))
    (hr0 : 2 ≤ r0) (hr0m : r0 < s.maxRow + 1)
    (hY : Y r0 = 2023) (hM : M r0 = 6) :
    IpcaWriter.getFirstRow s ⟨2023, 6, 1⟩ = some r0 := by
  have hkey : ∀ r, r < s.maxRow + 1 → 2 ≤ r →
      readYearMonthCell (s.getCell r 1) (s.getCell r 2) = some ⟨Y r, M r, 1⟩ := by
    intro r hm h2
    obtain ⟨h1, h2'⟩ := hread r hm h2
    rw [h1, h2']
    simp only [readYearMonthCell]
    rw [if_pos]
    obtain ⟨hv1, hv2, hv3, hv4⟩ := hvalid r hm h2
    exact ⟨hv1, hv2, hv3, hv4⟩
  show locateAux (fun row => readYearMonthCell (s.getCell row 1) (s.getCell row 2))
      ⟨2023, 6, 1⟩ s.maxRow = some r0
  rw [locateAux_skip _ _ r0 hr0 s.maxRow (by omega) ?_]
  · refine locateAux_found _ _ r0 hr0 ?_
    rw [hkey r0 hr0m hr0, hY, hM]
  · intro r h1 hr2
    refine ⟨⟨Y r, M r, 1⟩, hkey r (by omega) (by omega), ?_, ?_⟩
    · refine Date.mk_ne _ _ _ _ _ _ ?_
      rintro ⟨ha, hb, _⟩
      rcases hsort r0 hr0m r (by omega) hr0 h1 with h | ⟨h, h'⟩ <;> omega
    · rw [Bool.eq_false_iff]
      intro hlt
      rw [Date.ltb_mk] at hlt
      rcases hsort r0 hr0m r (by omega) hr0 h1 with h | ⟨h, h'⟩ <;> omega

/-- C4 witness for the amended claim: the concrete two-row IPCA sheet with a
(2023, 6) row at row 3 and first date 2023-06-01. -/
theorem C4_ipca_month_match_amended_witness :
    (2 : Nat) ≤ 3 ∧ IpcaWriter.getFirstRow c4Sheet ⟨2023, 6, 1⟩ = some 3 :=
  ⟨by decide,
    C4_ipca_month_match_amended c4Sheet
      (fun _ => 2023) (fun r => if r = 2 then 5 else 6) 3
      (by decide) (by decide) (by decide) (by decide) (by decide)
      (by decide) (by decide)⟩

/-- C7 counterexample: a metadata row whose identifier cell holds the string
`'abc'` cannot be parsed as an integer, but it is not skipped — `int('abc')`
raises `ValueError`, which the scan's `except TypeError` does not catch, so
the whole load aborts. -/
theorem C7_metadata_tolerance_cex :
    MetadataWriter.getIndicatorLastDate c7BadSheet = none ∧
    pyIntCell (c7BadSheet.getCell 2 1) = PyIntResult.valueErr := by decide

/-- C7 amended: rows whose identifier cell raises `TypeError` (an empty cell
or a non-string non-numeric value such as a date) are skipped without
failing; a string identifier that does not parse as an integer raises an
uncaught `ValueError` that aborts the load; a row with a parseable
identifier and an empty or non-date date cell yields a null last-date — in
particular identifier 11 with an empty date cell loads as a null lookup. -/
theorem C7_metadata_tolerance_amended :
    pyIntCell none = PyIntResult.typeErr ∧
    pyIntCell (some (vDate ⟨2024, 1, 2⟩)) = PyIntResult.typeErr ∧
    pyIntCell (some (vStr "abc")) = PyIntResult.valueErr ∧
    (∀ (s : Sheet) (m : MetaDict),
      MetadataWriter.getIndicatorLastDate s = some m →
      ∀ j, dictLookup j m = rowsLookup s j s.maxRow) ∧
    MetadataWriter.getIndicatorLastDate c7SkipSheet = some [(11, none)] ∧
    dictLookup 11 [((11 : Int), (none : Option Date))] = some none := by
  refine ⟨rfl, rfl, by decide, ?_, by decide, by decide⟩
  intro s m hload j
  have h := loadMetaAux_lookup s s.maxRow [] m hload j
  rw [h]
  cases hr : rowsLookup s j s.maxRow with
  | none => rfl
  | some v => rfl

/-- C7 witness for the amended claim: the identifier-11 row with an empty
date cell loads, and its lookup agrees with the row characterisation. -/
theorem C7_metadata_tolerance_amended_witness :
    MetadataWriter.getIndicatorLastDate c7SkipSheet = some [(11, none)] ∧
    dictLookup 11 [((11 : Int), (none : Option Date))] =
      rowsLookup c7SkipSheet 11 c7SkipSheet.maxRow :=
  ⟨by decide,
    C7_metadata_tolerance_amended.2.2.2.1 c7SkipSheet [(11, none)] (by decide) 11⟩

/-- C8 counterexample: flushing a one-entry mapping over a metadata sheet
that previously held two data rows leaves the second old row intact — the
flush does not erase anything beyond the rows it writes, so it is not a
destructive rebuild of the whole data region. -/
theorem C8_flush_cex :
    (MetadataWriter.writeIndicatorsLastDate c8OldSheet
      [(7, some ⟨2024, 2, 2⟩)]).getCell 3 1 = some (vInt 12) ∧
    (sortedItems [((7 : Int), some (⟨2024, 2, 2⟩ : Date))]).length = 1 ∧
    (MetadataWriter.writeIndicatorsLastDate c8OldSheet
      [(7, some ⟨2024, 2, 2⟩)]).getCell 3 1 ≠ none := by decide

/-- C8 amended: the flush writes the in-memory mapping in ascending
identifier order, one identifier per row starting at row 2, overwriting the
leading rows of the data region, but it leaves every row beyond the written
range unchanged (stale rows of a previously larger sheet survive). -/
theorem C8_flush_amended (s : Sheet) (m : MetaDict) :
    (∀ i < (sortedItems m).length,
      (MetadataWriter.writeIndicatorsLastDate s m).getCell (2 + i) 1 =
          some (vInt ((sortedItems m).getD i (0, none)).1) ∧
        (MetadataWriter.writeIndicatorsLastDate s m).getCell (2 + i) 2 =
          (((sortedItems m).getD i (0, none)).2).map vDate) ∧
    (sortedItems m).Pairwise (fun a b => a.1 ≤ b.1) ∧
    (sortedItems m).Perm m ∧
    (∀ r c, 2 + (sortedItems m).length ≤ r →
      (MetadataWriter.writeIndicatorsLastDate s m).getCell r c = s.getCell r c) := by
  refine ⟨?_, sortedItems_pairwise m, sortedItems_perm m, ?_⟩
  · intro i hi
    exact getCell_flushLoop_at (sortedItems m) 2 s i hi
  · intro r c hr
    exact getCell_flushLoop_outside (sortedItems m) 2 s r c (Or.inr hr)

/-- C8 witness for the amended claim: flushing the one-entry mapping writes
identifier 7 at row 2. -/
theorem C8_flush_amended_witness :
    (0 : Nat) < (sortedItems [((7 : Int), some (⟨2024, 2, 2⟩ : Date))]).length ∧
    (MetadataWriter.writeIndicatorsLastDate c8OldSheet
      [(7, some ⟨2024, 2, 2⟩)]).getCell (2 + 0) 1 = some (vInt 7) :=
  ⟨by decide, by
    have h := (C8_flush_amended c8OldSheet [(7, some ⟨2024, 2, 2⟩)]).1 0 (by decide)
    exact h.1.trans (by decide)⟩

/-- C9 counterexample: `get_indicator_last_date` called with identifier 999,
absent from the registry, does not raise: the `KeyError` is caught and
`None` is silently returned (the static registry is never consulted). -/
theorem C9_unknown_id_cex :
    IndicatorsWorkbook.getIndicatorLastDate [(11, some ⟨2024, 1, 3⟩)] 999 = none ∧
    worksheetProperties 999 = none := by decide

/-- C9 amended: `write_records` fails fast on identifiers absent from the
static registry (an uncaught `KeyError`), but `get_indicator_last_date`
does not: it catches the lookup failure and silently returns `None`. -/
theorem C9_unknown_id_amended (code : Int)
    (h : code ≠ -1 ∧ code ≠ 11 ∧ code ≠ 12 ∧ code ≠ 433 ∧ code ≠ 226) :
    worksheetProperties code = none ∧
    (∀ (wb : Workbook) (records : List IndicatorRecord) (ld : Option Date),
      IndicatorsWorkbook.writeRecords wb code records ld = none) ∧
    (∀ m : MetaDict, (∀ p ∈ m, p.1 ≠ code) →
      IndicatorsWorkbook.getIndicatorLastDate m code = none) := by
  obtain ⟨h1, h2, h3, h4, h5⟩ := h
  have hreg : worksheetProperties code = none := by
    unfold worksheetProperties
    rw [if_neg h1, if_neg h2, if_neg h3, if_neg h4, if_neg h5]
  refine ⟨hreg, ?_, ?_⟩
  · intro wb records ld
    simp [IndicatorsWorkbook.writeRecords, hreg]
  · intro m hm
    simp [IndicatorsWorkbook.getIndicatorLastDate, dictLookup_eq_none code m hm]

/-- C9 witness for the amended claim at the concrete unknown identifier
999. -/
theorem C9_unknown_id_amended_witness :
    ((999 : Int) ≠ -1 ∧ (999 : Int) ≠ 11 ∧ (999 : Int) ≠ 12 ∧
      (999 : Int) ≠ 433 ∧ (999 : Int) ≠ 226) ∧
    worksheetProperties 999 = none :=
  ⟨by decide, (C9_unknown_id_amended 999 (by decide)).1⟩

theorem getCell_metaWriteHeaders (t : Sheet) (r c : Nat) (h : 2 ≤ r) :
    (MetadataWriter.writeHeaders t).getCell r c = t.getCell r c := by
  unfold MetadataWriter.writeHeaders
  rw [Sheet.getCell_setCell, Sheet.getCell_setCell,
    if_neg (by rintro ⟨h1, _⟩; omega), if_neg (by rintro ⟨h1, _⟩; omega)]

theorem maxRow_metaWriteHeaders (t : Sheet) :
    (MetadataWriter.writeHeaders t).maxRow = t.maxRow := by
  unfold MetadataWriter.writeHeaders
  rw [Sheet.maxRow_setCell, Sheet.maxRow_setCell]
  have := Sheet.one_le_maxRow t
  omega

theorem dictInsert_ne_nil (k : Int) (v : Option Date) (m : MetaDict) :
    dictInsert k v m ≠ [] := by
  cases m with
  | nil => simp [dictInsert]
  | cons p rest =>
      obtain ⟨k', v'⟩ := p
      simp only [dictInsert]
      split <;> simp

theorem nodup_keys_getD_ne (L : List (Int × Option Date))
    (h : (L.map Prod.fst).Nodup) (i j : Nat) (hi : i < L.length)
    (hj : j < L.length) (hne : i ≠ j) :
    (L.getD i (0, none)).1 ≠ (L.getD j (0, none)).1 := by
  intro he
  rw [List.getD_eq_get L _ hi, List.getD_eq_get L _ hj] at he
  have hmap : ∀ (n : Nat) (hn : n < L.length),
      (L.map Prod.fst).get ⟨n, by simpa using hn⟩ = (L.get ⟨n, hn⟩).1 := by
    intro n hn
    rw [List.get_map]
  have hinj := (List.Nodup.get_inj_iff h).mp
    (show (L.map Prod.fst).get ⟨i, by simpa using hi⟩ =
        (L.map Prod.fst).get ⟨j, by simpa using hj⟩ by
      rw [hmap i hi, hmap j hj]; exact he)
  exact hne (by simpa using congrArg Fin.val hinj)

theorem flushed_sheet_reload (s0 : Sheet) (L : List (Int × Option Date))
    (j : Int) (dd : Option Date)
    (hnd : (L.map Prod.fst).Nodup)
    (hval : ∀ r', 2 ≤ r' → r' ≤ s0.maxRow →
      pyIntCell (s0.getCell r' 1) ≠ PyIntResult.valueErr)
    (i : Nat) (hi : i < L.length) (hitem : L.getD i (0, none) = (j, dd)) :
    ∃ m2, loadMetaAux (MetadataWriter.writeHeaders (flushLoop L 2 s0))
        (MetadataWriter.writeHeaders (flushLoop L 2 s0)).maxRow [] = some m2 ∧
      dictLookup j m2 = some dd := by
  have hLne : L ≠ [] := by
    intro h
    rw [h] at hi
    simp at hi
  have hmaxflush : (flushLoop L 2 s0).maxRow = max s0.maxRow (L.length + 1) := by
    rw [maxRow_flushLoop L 2 s0 hLne]
    congr 1
    omega
  have hmaxh : (MetadataWriter.writeHeaders (flushLoop L 2 s0)).maxRow
      = max s0.maxRow (L.length + 1) := by
    rw [maxRow_metaWriteHeaders, hmaxflush]
  have hcell : ∀ r c, 2 ≤ r →
      (MetadataWriter.writeHeaders (flushLoop L 2 s0)).getCell r c
        = (flushLoop L 2 s0).getCell r c :=
    fun r c h2 => getCell_metaWriteHeaders _ r c h2
  have hAt : ∀ n, n < L.length →
      (flushLoop L 2 s0).getCell (2 + n) 1 = some (vInt (L.getD n (0, none)).1) ∧
      (flushLoop L 2 s0).getCell (2 + n) 2 = ((L.getD n (0, none)).2).map vDate :=
    fun n hn => getCell_flushLoop_at L 2 s0 n hn
  have hOut : ∀ r c, 2 + L.length ≤ r →
      (flushLoop L 2 s0).getCell r c = s0.getCell r c :=
    fun r c hr => getCell_flushLoop_outside L 2 s0 r c (Or.inr hr)
  have hok : ∀ r', 2 ≤ r' →
      r' ≤ (MetadataWriter.writeHeaders (flushLoop L 2 s0)).maxRow →
      pyIntCell ((MetadataWriter.writeHeaders (flushLoop L 2 s0)).getCell r' 1)
        ≠ PyIntResult.valueErr := by
    intro r' h2 hmax
    rw [hcell r' 1 h2]
    by_cases hr : r' ≤ L.length + 1
    · obtain ⟨h1, _⟩ := hAt (r' - 2) (by omega)
      rw [show 2 + (r' - 2) = r' by omega] at h1
      rw [h1]
      simp [pyIntCell]
    · have hrs : r' ≤ s0.maxRow := by
        rw [hmaxh] at hmax
        rcases le_max_iff.mp hmax with h | h
        · exact h
        · omega
      rw [hOut r' 1 (by omega)]
      exact hval r' h2 hrs
  obtain ⟨m2, hm2⟩ :=
    loadMetaAux_isSome (MetadataWriter.writeHeaders (flushLoop L 2 s0))
      (MetadataWriter.writeHeaders (flushLoop L 2 s0)).maxRow [] hok
  refine ⟨m2, hm2, ?_⟩
  have hrid1 : (MetadataWriter.writeHeaders (flushLoop L 2 s0)).getCell (2 + i) 1
      = some (vInt j) := by
    rw [hcell _ 1 (by omega), (hAt i hi).1, hitem]
  have hridd : (MetadataWriter.writeHeaders (flushLoop L 2 s0)).getCell (2 + i) 2
      = dd.map vDate := by
    rw [hcell _ 2 (by omega), (hAt i hi).2, hitem]
  have hbelow : ∀ r', 2 ≤ r' → r' < 2 + i →
      ∀ c, pyIntCell ((MetadataWriter.writeHeaders (flushLoop L 2 s0)).getCell r' 1)
        = PyIntResult.ok c → c ≠ j := by
    intro r' h2 hlt c hc
    have hjlt : r' - 2 < L.length := by omega
    obtain ⟨h1, _⟩ := hAt (r' - 2) hjlt
    rw [show 2 + (r' - 2) = r' by omega] at h1
    rw [hcell r' 1 h2, h1] at hc
    simp only [pyIntCell, PyIntResult.ok.injEq] at hc
    subst hc
    have hne := nodup_keys_getD_ne L hnd (r' - 2) i hjlt hi (by omega)
    rw [hitem] at hne
    exact hne
  have hfound : rowsLookup (MetadataWriter.writeHeaders (flushLoop L 2 s0)) j (2 + i)
      = some dd := by
    rw [rowsLookup_found _ j (2 + i) (by omega) hbelow
      (by rw [hrid1]; simp [pyIntCell])]
    rw [hridd]
    cases dd <;> simp [pyDateCell]
  have hmono := rowsLookup_mono _ j (2 + i) dd hfound
    (MetadataWriter.writeHeaders (flushLoop L 2 s0)).maxRow
    (by rw [hmaxh]; exact le_trans (by omega) (le_max_right s0.maxRow (L.length + 1)))
  have hlook := loadMetaAux_lookup (MetadataWriter.writeHeaders (flushLoop L 2 s0))
    (MetadataWriter.writeHeaders (flushLoop L 2 s0)).maxRow [] m2 hm2 j
  rw [hmono] at hlook
  exact hlook

/-- C6: setting the in-memory metadata entry `id → d`, flushing it to the
metadata sheet, and constructing a new Metadata Store from the flushed sheet
yields a store whose lookup for `id` returns `d`. -/
theorem C6_metadata_roundtrip (ws0 s0 : Sheet) (m0 : MetaDict)
    (id : Int) (d : Date)
    (hnew : MetadataWriter.new ws0 = some (s0, m0)) :
    ∃ m2, MetadataWriter.new
        (MetadataWriter.writeIndicatorsLastDate s0 (dictInsert id (some d) m0)) =
      some (MetadataWriter.writeHeaders
        (MetadataWriter.writeIndicatorsLastDate s0 (dictInsert id (some d) m0)), m2) ∧
      dictLookup id m2 = some (some d) := by
  unfold MetadataWriter.new at hnew
  cases hl : MetadataWriter.getIndicatorLastDate (MetadataWriter.writeHeaders ws0) with
  | none => rw [hl] at hnew; simp at hnew
  | some m =>
      rw [hl] at hnew
      simp only [Option.map_some', Option.some.injEq, Prod.mk.injEq] at hnew
      obtain ⟨hs0, hm⟩ := hnew
      rw [hs0, hm] at hl
      have hload : loadMetaAux s0 s0.maxRow [] = some m0 := hl
      have hm0nd : (m0.map Prod.fst).Nodup :=
        loadMetaAux_nodupKeys s0 s0.maxRow [] m0 (by simp) hload
      have hm1nd : ((dictInsert id (some d) m0).map Prod.fst).Nodup :=
        nodupKeys_dictInsert _ _ _ hm0nd
      have hperm := sortedItems_perm (dictInsert id (some d) m0)
      have hLnd : ((sortedItems (dictInsert id (some d) m0)).map Prod.fst).Nodup :=
        (List.Perm.nodup_iff (List.Perm.map Prod.fst hperm)).mpr hm1nd
      obtain ⟨⟨i, hi⟩, hget⟩ := List.mem_iff_get.mp
        ((List.Perm.mem_iff hperm).mpr (mem_dictInsert_self id (some d) m0))
      have hitem : (sortedItems (dictInsert id (some d) m0)).getD i (0, none)
          = (id, some d) := by
        rw [List.getD_eq_get _ _ hi, hget]
      have hval : ∀ r', 2 ≤ r' → r' ≤ s0.maxRow →
          pyIntCell (s0.getCell r' 1) ≠ PyIntResult.valueErr :=
        loadMetaAux_no_valueErr s0 s0.maxRow [] m0 hload
      obtain ⟨m2, hm2, hlook⟩ := flushed_sheet_reload s0
        (sortedItems (dictInsert id (some d) m0)) id (some d) hLnd hval i hi hitem
      refine ⟨m2, ?_, hlook⟩
      unfold MetadataWriter.new
      rw [show MetadataWriter.getIndicatorLastDate (MetadataWriter.writeHeaders
          (MetadataWriter.writeIndicatorsLastDate s0 (dictInsert id (some d) m0)))
        = some m2 from hm2, Option.map_some']

/-- C6 witness: starting from a blank metadata sheet, set `11 → 2024-01-03`,
flush, reconstruct, and look 11 up. -/
theorem C6_metadata_roundtrip_witness :
    MetadataWriter.new Sheet.empty = some (MetadataWriter.writeHeaders Sheet.empty, []) ∧
    (∃ m2, MetadataWriter.new
        (MetadataWriter.writeIndicatorsLastDate (MetadataWriter.writeHeaders Sheet.empty)
          (dictInsert 11 (some ⟨2024, 1, 3⟩) [])) =
      some (MetadataWriter.writeHeaders
        (MetadataWriter.writeIndicatorsLastDate (MetadataWriter.writeHeaders Sheet.empty)
          (dictInsert 11 (some ⟨2024, 1, 3⟩) [])), m2) ∧
      dictLookup 11 m2 = some (some ⟨2024, 1, 3⟩)) :=
  ⟨by decide, C6_metadata_roundtrip Sheet.empty (MetadataWriter.writeHeaders Sheet.empty)
    [] 11 ⟨2024, 1, 3⟩ (by decide)⟩

theorem Sheet.getCell_of_maxCol_lt (s : Sheet) (r c : Nat) (h : s.maxCol < c) :
    s.getCell r c = none := by
  rcases s with ⟨cells⟩
  induction cells with
  | nil => rfl
  | cons e rest ih =>
      simp only [Sheet.maxCol, List.foldr, Sheet.getCell, cellsGet] at *
      rw [if_neg]
      · exact ih (by omega)
      · intro he
        have : e.1.2 = c := by rw [he]
        omega

/-- C1: on a sheet holding five date-keyed data rows `d1 < … < d5` in rows
2 … 6, writing four records dated `d3 < d4 < d5 < d6` overwrites rows 4 … 6
in place and appends row 7: rows 1 … 3 are untouched, rows 4 … 7 hold
exactly the formatted new records (their dates in ascending order, hence no
duplicate date rows), and every cell beyond the new last row is empty. -/
theorem C1_overwrite_merge (f : IndicatorRecord → List (Option CellValue))
    (hf3 : ∀ rec, (f rec).length = 3)
    (hfd : ∀ rec, (f rec).getD 0 none = some (vDate rec.date))
    (hs : List CellValue)
    (s : Sheet) (d1 d2 : Date) (e1 e2 e3 e4 : IndicatorRecord)
    (hmax : s.maxRow = 6)
    (hr2 : s.getCell 2 1 = some (vDate d1))
    (hr3 : s.getCell 3 1 = some (vDate d2))
    (hr4 : s.getCell 4 1 = some (vDate e1.date))
    (hr5 : s.getCell 5 1 = some (vDate e2.date))
    (hr6 : s.getCell 6 1 = some (vDate e3.date))
    (hcols : ∀ r c, 2 ≤ r → r ≤ 6 → 4 ≤ c → s.getCell r c = none)
    (h12 : d1.ltb d2 = true) (h23 : d2.ltb e1.date = true)
    (h34 : e1.date.ltb e2.date = true) (h45 : e2.date.ltb e3.date = true)
    (h56 : e3.date.ltb e4.date = true) :
    ∃ s', runWriter ⟨hs, f, WorksheetWriter.getFirstRow⟩ s [e1, e2, e3, e4] = some s' ∧
      (∀ c, s'.getCell 1 c = s.getCell 1 c) ∧
      (∀ c, s'.getCell 2 c = s.getCell 2 c) ∧
      (∀ c, s'.getCell 3 c = s.getCell 3 c) ∧
      (∀ i, i < 4 → ∀ c, 1 ≤ c → c ≤ 3 → s'.getCell (4 + i) c =
        (f ([e1, e2, e3, e4].getD i defaultRecord)).getD (c - 1) none) ∧
      (∀ i, i < 4 → s'.getCell (4 + i) 1 =
        some (vDate ([e1, e2, e3, e4].getD i defaultRecord).date)) ∧
      (∀ i, i < 4 → ∀ c, 4 ≤ c → s'.getCell (4 + i) c = none) ∧
      (∀ r c, 8 ≤ r → s'.getCell r c = none) := by
  have hfne : ∀ rec, f rec ≠ [] := by
    intro rec hnil
    have h := hf3 rec
    rw [hnil] at h
    simp at h
  -- the row locator answers row 4
  have hloc : WorksheetWriter.getFirstRow s e1.date = some 4 := by
    show locateAux (fun row => readDateCell (s.getCell row 1)) e1.date s.maxRow = some 4
    rw [hmax]
    rw [locateAux_skip _ e1.date 4 (by omega) 6 (by omega) ?_]
    · refine locateAux_found _ e1.date 4 (by omega) ?_
      rw [hr4]
      rfl
    · intro r hgt hle
      interval_cases r
      · refine ⟨e2.date, by rw [hr5]; rfl, ?_, Date.ltb_asymm h34⟩
        exact fun he => (Date.ne_of_ltb h34) he.symm
      · have h35 : e1.date.ltb e3.date = true := Date.ltb_trans h34 h45
        refine ⟨e3.date, by rw [hr6]; rfl, ?_, Date.ltb_asymm h35⟩
        exact fun he => (Date.ne_of_ltb h35) he.symm
  -- the written sheet, before the (empty) erase step
  have hmaxloop : (writeRecordsLoop f [e1, e2, e3, e4] 4 s).maxRow = 7 := by
    rw [maxRow_writeRecordsLoop f hfne [e1, e2, e3, e4] 4 s (by simp)]
    simp only [List.length_cons, List.length_nil]
    omega
  refine ⟨writeRecordsLoop f [e1, e2, e3, e4] 4 s, ?_, ?_, ?_, ?_, ?_, ?_, ?_, ?_⟩
  · simp only [runWriter, hloc]
    rw [if_neg (by omega), if_neg (by omega)]
    rw [eraseExtraRecords_of_maxRow_lt _ _ (by rw [hmaxloop]; simp)]
  · intro c
    exact getCell_writeRecordsLoop_outside f _ 4 s 1 c (Or.inl (by omega))
  · intro c
    exact getCell_writeRecordsLoop_outside f _ 4 s 2 c (Or.inl (by omega))
  · intro c
    exact getCell_writeRecordsLoop_outside f _ 4 s 3 c (Or.inl (by omega))
  · intro i hi c hc1 hc3
    rw [getCell_writeRecordsLoop_at f [e1, e2, e3, e4] 4 s i c (by simp; omega)]
    rw [if_pos ⟨hc1, by rw [hf3]; omega⟩]
  · intro i hi
    rw [getCell_writeRecordsLoop_at f [e1, e2, e3, e4] 4 s i 1 (by simp; omega)]
    rw [if_pos ⟨by omega, by rw [hf3]; omega⟩]
    simpa using hfd ([e1, e2, e3, e4].getD i defaultRecord)
  · intro i hi c hc
    rw [getCell_writeRecordsLoop_at f [e1, e2, e3, e4] 4 s i c (by simp; omega)]
    rw [if_neg (by rw [hf3]; rintro ⟨_, hx⟩; omega)]
    interval_cases i
    · exact hcols 4 c (by omega) (by omega) hc
    · exact hcols 5 c (by omega) (by omega) hc
    · exact hcols 6 c (by omega) (by omega) hc
    · exact Sheet.getCell_of_maxRow_lt s 7 c (by omega)
  · intro r c hr
    rw [getCell_writeRecordsLoop_outside f _ 4 s r c (Or.inr (by simp; omega))]
    exact Sheet.getCell_of_maxRow_lt s r c (by omega)

/-- C1 witness: a concrete Selic sheet with rows for Jan 2 … Jan 6 receives
records for Jan 4 … Jan 7. -/
theorem C1_overwrite_merge_witness :
    c1Sheet.maxRow = 6 ∧
    (∃ s', runWriter ⟨SelicWriter.getHeaders, SelicWriter.formatRecord,
        WorksheetWriter.getFirstRow⟩ c1Sheet [c1e1, c1e2, c1e3, c1e4] = some s' ∧
      (∀ c, s'.getCell 1 c = c1Sheet.getCell 1 c) ∧
      (∀ c, s'.getCell 2 c = c1Sheet.getCell 2 c) ∧
      (∀ c, s'.getCell 3 c = c1Sheet.getCell 3 c) ∧
      (∀ i, i < 4 → ∀ c, 1 ≤ c → c ≤ 3 → s'.getCell (4 + i) c =
        (SelicWriter.formatRecord
          ([c1e1, c1e2, c1e3, c1e4].getD i defaultRecord)).getD (c - 1) none) ∧
      (∀ i, i < 4 → s'.getCell (4 + i) 1 =
        some (vDate ([c1e1, c1e2, c1e3, c1e4].getD i defaultRecord).date)) ∧
      (∀ i, i < 4 → ∀ c, 4 ≤ c → s'.getCell (4 + i) c = none) ∧
      (∀ r c, 8 ≤ r → s'.getCell r c = none)) :=
  ⟨by decide,
    C1_overwrite_merge SelicWriter.formatRecord (fun _ => rfl) (fun _ => rfl)
      SelicWriter.getHeaders c1Sheet ⟨2024, 1, 2⟩ ⟨2024, 1, 3⟩ c1e1 c1e2 c1e3 c1e4
      (by decide) (by decide) (by decide) (by decide) (by decide) (by decide)
      (fun r c _ _ hc => Sheet.getCell_of_maxCol_lt c1Sheet r c (by
        have h3 : c1Sheet.maxCol = 3 := by decide
        omega))
      (by decide) (by decide) (by decide) (by decide) (by decide)⟩

theorem runWriter_empty_charact (w : WriterSpec) (r0 : IndicatorRecord)
    (rest : List IndicatorRecord)
    (hfne : ∀ rec, w.formatRecord rec ≠ [])
    (hloc : w.getFirstRow Sheet.empty r0.date = some 1) :
    ∃ s1, runWriter w Sheet.empty (r0 :: rest) = some s1 ∧
      s1 = writeRecordsLoop w.formatRecord (r0 :: rest) 2
        (writeHeaders w.headers Sheet.empty) ∧
      s1.maxRow = (r0 :: rest).length + 1 ∧
      (∀ c, 1 ≤ c → s1.getCell 1 c = (w.headers.map some).getD (c - 1) none) ∧
      (∀ i, i < (r0 :: rest).length → ∀ c, 1 ≤ c →
        s1.getCell (2 + i) c =
          (w.formatRecord ((r0 :: rest).getD i defaultRecord)).getD (c - 1) none) ∧
      (∀ r c, 2 + (r0 :: rest).length ≤ r → s1.getCell r c = none) := by
  have hWH : (writeHeaders w.headers Sheet.empty).maxRow = 1 := by
    unfold writeHeaders
    by_cases h : w.headers.map some = []
    · rw [h]
      rfl
    · rw [maxRow_writeCellsRow _ _ _ _ h]
      rfl
  have hmaxloop : (writeRecordsLoop w.formatRecord (r0 :: rest) 2
      (writeHeaders w.headers Sheet.empty)).maxRow = (r0 :: rest).length + 1 := by
    rw [maxRow_writeRecordsLoop w.formatRecord hfne _ 2 _ (by simp), hWH]
    simp only [List.length_cons]
    omega
  refine ⟨_, ?_, rfl, hmaxloop, ?_, ?_, ?_⟩
  · simp only [runWriter, hloc, if_true]
    rw [eraseExtraRecords_of_maxRow_lt _ _ (by rw [hmaxloop]; omega)]
  · intro c hc
    rw [getCell_writeRecordsLoop_outside w.formatRecord _ 2 _ 1 c (Or.inl (by omega))]
    show (writeCellsRow Sheet.empty 1 1 (w.headers.map some)).getCell 1 c = _
    rw [getCell_writeCellsRow]
    by_cases hcr : c < 1 + (w.headers.map some).length
    · rw [if_pos ⟨rfl, hc, hcr⟩]
    · rw [if_neg (by rintro ⟨_, _, hx⟩; omega)]
      rw [List.getD_eq_default _ _ (by omega)]
      rfl
  · intro i hi c hc
    rw [getCell_writeRecordsLoop_at w.formatRecord _ 2 _ i c hi]
    by_cases hcr : c < 1 + (w.formatRecord ((r0 :: rest).getD i defaultRecord)).length
    · rw [if_pos ⟨hc, hcr⟩]
    · rw [if_neg (by rintro ⟨_, hx⟩; omega)]
      rw [List.getD_eq_default _ _ (by omega)]
      show (writeCellsRow Sheet.empty 1 1 (w.headers.map some)).getCell (2 + i) c = none
      rw [getCell_writeCellsRow, if_neg (by rintro ⟨hx, _⟩; omega)]
      rfl
  · intro r c hr
    rw [getCell_writeRecordsLoop_outside w.formatRecord _ 2 _ r c (Or.inr hr)]
    show (writeCellsRow Sheet.empty 1 1 (w.headers.map some)).getCell r c = none
    rw [getCell_writeCellsRow, if_neg (by rintro ⟨hx, _⟩; omega)]
    rfl

theorem runWriter_rewrite (w : WriterSpec) (r0 : IndicatorRecord)
    (rest : List IndicatorRecord) (s1 : Sheet)
    (hfne : ∀ rec, w.formatRecord rec ≠ [])
    (hloc2 : w.getFirstRow s1 r0.date = some 2)
    (hmax1 : s1.maxRow = (r0 :: rest).length + 1)
    (hsame : ∀ i, i < (r0 :: rest).length → ∀ c, 1 ≤ c →
      s1.getCell (2 + i) c =
        (w.formatRecord ((r0 :: rest).getD i defaultRecord)).getD (c - 1) none) :
    ∃ s2, runWriter w s1 (r0 :: rest) = some s2 ∧
      ∀ r c, s2.getCell r c = s1.getCell r c := by
  have hmaxloop : (writeRecordsLoop w.formatRecord (r0 :: rest) 2 s1).maxRow
      = (r0 :: rest).length + 1 := by
    rw [maxRow_writeRecordsLoop w.formatRecord hfne _ 2 _ (by simp), hmax1]
    omega
  refine ⟨writeRecordsLoop w.formatRecord (r0 :: rest) 2 s1, ?_, ?_⟩
  · simp only [runWriter, hloc2]
    norm_num
    rw [eraseExtraRecords_of_maxRow_lt _ _
      (by simp only [List.length_cons] at hmaxloop ⊢; rw [hmaxloop]; omega)]
  · intro r c
    by_cases hr : 2 ≤ r ∧ r < 2 + (r0 :: rest).length
    · obtain ⟨i, rfl⟩ : ∃ i, r = 2 + i := ⟨r - 2, by omega⟩
      rw [getCell_writeRecordsLoop_at w.formatRecord _ 2 _ i c (by omega)]
      by_cases hc : 1 ≤ c ∧
          c < 1 + (w.formatRecord ((r0 :: rest).getD i defaultRecord)).length
      · rw [if_pos hc, hsame i (by omega) c hc.1]
      · rw [if_neg hc]
    · rw [getCell_writeRecordsLoop_outside w.formatRecord _ 2 _ r c (by omega)]

theorem datekeyed_second_scan (f : IndicatorRecord → List (Option CellValue))
    (hcol1 : ∀ rec, (f rec).getD 0 none = some (vDate rec.date))
    (r0 : IndicatorRecord) (rest : List IndicatorRecord) (s1 : Sheet)
    (hmax1 : s1.maxRow = (r0 :: rest).length + 1)
    (hcells : ∀ i, i < (r0 :: rest).length → ∀ c, 1 ≤ c →
      s1.getCell (2 + i) c =
        (f ((r0 :: rest).getD i defaultRecord)).getD (c - 1) none)
    (hasc : ∀ j, 0 < j → j < (r0 :: rest).length →
      r0.date.ltb (((r0 :: rest).getD j defaultRecord).date) = true) :
    WorksheetWriter.getFirstRow s1 r0.date = some 2 := by
  have hreadI : ∀ i, i < (r0 :: rest).length →
      readDateCell (s1.getCell (2 + i) 1) =
        some (((r0 :: rest).getD i defaultRecord).date) := by
    intro i hi
    rw [hcells i hi 1 (by omega)]
    rw [show (1 : Nat) - 1 = 0 from rfl, hcol1]
    rfl
  show locateAux (fun row => readDateCell (s1.getCell row 1)) r0.date s1.maxRow
    = some 2
  rw [hmax1]
  rw [locateAux_skip _ _ 2 (by omega) ((r0 :: rest).length + 1)
    (by simp only [List.length_cons]; omega) ?_]
  · refine locateAux_found _ _ 2 (by omega) ?_
    exact hreadI 0 (by simp)
  · intro r h1 h2
    obtain ⟨i, rfl⟩ : ∃ i, r = 2 + i := ⟨r - 2, by omega⟩
    have hilen : i < (r0 :: rest).length := by omega
    have hj := hasc i (by omega) hilen
    refine ⟨((r0 :: rest).getD i defaultRecord).date, hreadI i hilen, ?_,
      Date.ltb_asymm hj⟩
    exact fun he => (Date.ne_of_ltb hj) he.symm

theorem ipca_second_scan (y0 m0 : Int) (r0 : IndicatorRecord)
    (rest : List IndicatorRecord) (s1 : Sheet)
    (hdate : r0.date = ⟨y0, m0, 1⟩)
    (hmax1 : s1.maxRow = (r0 :: rest).length + 1)
    (hcells : ∀ i, i < (r0 :: rest).length → ∀ c, 1 ≤ c →
      s1.getCell (2 + i) c =
        (IpcaWriter.formatRecord ((r0 :: rest).getD i defaultRecord)).getD (c - 1) none)
    (hvalid : ∀ j, j < (r0 :: rest).length →
      1 ≤ ((r0 :: rest).getD j defaultRecord).date.year ∧
      ((r0 :: rest).getD j defaultRecord).date.year ≤ 9999 ∧
      1 ≤ ((r0 :: rest).getD j defaultRecord).date.month ∧
      ((r0 :: rest).getD j defaultRecord).date.month ≤ 12)
    (hasc : ∀ j, 0 < j → j < (r0 :: rest).length →
      (y0 < ((r0 :: rest).getD j defaultRecord).date.year ∨
        (y0 = ((r0 :: rest).getD j defaultRecord).date.year ∧
          m0 < ((r0 :: rest).getD j defaultRecord).date.month))) :
    IpcaWriter.getFirstRow s1 r0.date = some 2 := by
  have hy : r0.date.year = y0 := by rw [hdate]
  have hm : r0.date.month = m0 := by rw [hdate]
  have hreadI : ∀ i, i < (r0 :: rest).length →
      readYearMonthCell (s1.getCell (2 + i) 1) (s1.getCell (2 + i) 2) =
        some ⟨((r0 :: rest).getD i defaultRecord).date.year,
          ((r0 :: rest).getD i defaultRecord).date.month, 1⟩ := by
    intro i hi
    rw [hcells i hi 1 (by omega), hcells i hi 2 (by omega)]
    rw [show (1 : Nat) - 1 = 0 from rfl, show (2 : Nat) - 1 = 1 from rfl]
    simp only [IpcaWriter.formatRecord, List.getD_cons_zero, List.getD_cons_succ]
    simp only [readYearMonthCell]
    rw [if_pos (hvalid i hi)]
  rw [hdate]
  show locateAux
    (fun row => readYearMonthCell (s1.getCell row 1) (s1.getCell row 2))
    ⟨y0, m0, 1⟩ s1.maxRow = some 2
  rw [hmax1]
  rw [locateAux_skip _ _ 2 (by omega) ((r0 :: rest).length + 1)
    (by simp only [List.length_cons]; omega) ?_]
  · refine locateAux_found _ _ 2 (by omega) ?_
    have h0 := hreadI 0 (by simp)
    simp only [List.getD_cons_zero] at h0
    rw [hy, hm] at h0
    exact h0
  · intro r h1 h2
    obtain ⟨i, rfl⟩ : ∃ i, r = 2 + i := ⟨r - 2, by omega⟩
    have hilen : i < (r0 :: rest).length := by omega
    have hj := hasc i (by omega) hilen
    refine ⟨⟨((r0 :: rest).getD i defaultRecord).date.year,
      ((r0 :: rest).getD i defaultRecord).date.month, 1⟩, hreadI i hilen, ?_, ?_⟩
    · refine Date.mk_ne _ _ _ _ _ _ ?_
      rintro ⟨ha, hb, _⟩
      rcases hj with h | ⟨h, h'⟩ <;> omega
    · rw [Bool.eq_false_iff]
      intro hlt
      rw [Date.ltb_mk] at hlt
      rcases hj with h | ⟨h, h'⟩ <;> omega

theorem datekeyed_idempotent (w : WriterSpec)
    (hspec : w.getFirstRow = WorksheetWriter.getFirstRow)
    (hfne : ∀ rec, w.formatRecord rec ≠ [])
    (hcol1 : ∀ rec, (w.formatRecord rec).getD 0 none = some (vDate rec.date))
    (r0 : IndicatorRecord) (rest : List IndicatorRecord)
    (hasc : ∀ j, 0 < j → j < (r0 :: rest).length →
      r0.date.ltb (((r0 :: rest).getD j defaultRecord).date) = true) :
    ∃ s1 s2, runWriter w Sheet.empty (r0 :: rest) = some s1 ∧
      runWriter w s1 (r0 :: rest) = some s2 ∧
      (∀ r c, s2.getCell r c = s1.getCell r c) ∧
      (∀ c, 1 ≤ c → s1.getCell 1 c = (w.headers.map some).getD (c - 1) none) ∧
      (∀ i, i < (r0 :: rest).length → ∀ c, 1 ≤ c →
        s1.getCell (2 + i) c =
          (w.formatRecord ((r0 :: rest).getD i defaultRecord)).getD (c - 1) none) ∧
      (∀ r c, 2 + (r0 :: rest).length ≤ r → s1.getCell r c = none) := by
  have hloc1 : w.getFirstRow Sheet.empty r0.date = some 1 := by
    rw [hspec]
    rfl
  obtain ⟨s1, hrun1, _, hmax1, hhdr, hrecs, hbey⟩ :=
    runWriter_empty_charact w r0 rest hfne hloc1
  have hloc2 : w.getFirstRow s1 r0.date = some 2 := by
    rw [hspec]
    exact datekeyed_second_scan w.formatRecord hcol1 r0 rest s1 hmax1 hrecs hasc
  obtain ⟨s2, hrun2, heq⟩ := runWriter_rewrite w r0 rest s1 hfne hloc2 hmax1 hrecs
  exact ⟨s1, s2, hrun1, hrun2, heq, hhdr, hrecs, hbey⟩

theorem ipca_idempotent (r0 : IndicatorRecord) (rest : List IndicatorRecord)
    (hday : r0.date.day = 1)
    (hvalid : ∀ j, j < (r0 :: rest).length →
      1 ≤ ((r0 :: rest).getD j defaultRecord).date.year ∧
      ((r0 :: rest).getD j defaultRecord).date.year ≤ 9999 ∧
      1 ≤ ((r0 :: rest).getD j defaultRecord).date.month ∧
      ((r0 :: rest).getD j defaultRecord).date.month ≤ 12)
    (hasc : ∀ j, 0 < j → j < (r0 :: rest).length →
      (r0.date.year < ((r0 :: rest).getD j defaultRecord).date.year ∨
        (r0.date.year = ((r0 :: rest).getD j defaultRecord).date.year ∧
          r0.date.month < ((r0 :: rest).getD j defaultRecord).date.month))) :
    ∃ s1 s2, runWriter ipcaSpec Sheet.empty (r0 :: rest) = some s1 ∧
      runWriter ipcaSpec s1 (r0 :: rest) = some s2 ∧
      (∀ r c, s2.getCell r c = s1.getCell r c) ∧
      (∀ c, 1 ≤ c → s1.getCell 1 c = (ipcaSpec.headers.map some).getD (c - 1) none) ∧
      (∀ i, i < (r0 :: rest).length → ∀ c, 1 ≤ c →
        s1.getCell (2 + i) c =
          (ipcaSpec.formatRecord ((r0 :: rest).getD i defaultRecord)).getD (c - 1) none) ∧
      (∀ r c, 2 + (r0 :: rest).length ≤ r → s1.getCell r c = none) := by
  have hfne : ∀ rec, ipcaSpec.formatRecord rec ≠ [] := by
    intro rec
    simp [ipcaSpec, IpcaWriter.formatRecord]
  have hdate : r0.date = ⟨r0.date.year, r0.date.month, 1⟩ := by
    rw [← hday]
  have hloc1 : ipcaSpec.getFirstRow Sheet.empty r0.date = some 1 := rfl
  obtain ⟨s1, hrun1, _, hmax1, hhdr, hrecs, hbey⟩ :=
    runWriter_empty_charact ipcaSpec r0 rest hfne hloc1
  have hloc2 : ipcaSpec.getFirstRow s1 r0.date = some 2 :=
    ipca_second_scan r0.date.year r0.date.month r0 rest s1 hdate hmax1 hrecs
      hvalid hasc
  obtain ⟨s2, hrun2, heq⟩ := runWriter_rewrite ipcaSpec r0 rest s1 hfne hloc2
    hmax1 hrecs
  exact ⟨s1, s2, hrun1, hrun2, heq, hhdr, hrecs, hbey⟩

/-- C5 counterexample: with the IPCA variant, writing the RecordSet
(2023-06-15, 2023-07-15) to an empty sheet and then writing it again does
not reproduce the same state: the second write's row locator builds the key
2023-06-01 from the June row, finds it strictly earlier than 2023-06-15,
and restarts at row 3, duplicating the June record (cell (3,2) holds month
7 after one write but month 6 after two). -/
theorem C5_write_twice_cex :
    (runWriter ipcaSpec Sheet.empty [c5r1, c5r2]).map (fun s1 => s1.getCell 3 2)
      = some (some (vInt 7)) ∧
    (runWriter ipcaSpec Sheet.empty [c5r1, c5r2]).bind
      (fun s1 => (runWriter ipcaSpec s1 [c5r1, c5r2]).map (fun s2 =>
        (s2.getCell 3 2, s1.getCell 3 2)))
      = some (some (vInt 6), some (vInt 7)) := by decide

/-- C5 amended: writing a RecordSet twice to an empty sheet yields the same
sheet state (headers at row 1, the formatted records from row 2, nothing
else) for the Selic, CDI and TR variants whenever the records ascend
strictly by date; for the IPCA variant the same holds only when the
earliest record falls on the first day of its month (and the records ascend
strictly by (year, month) with valid components) — otherwise the second
write duplicates rows, as the counterexample shows. -/
theorem C5_write_twice_amended :
    (∀ (r0 : IndicatorRecord) (rest : List IndicatorRecord),
      (∀ j, 0 < j → j < (r0 :: rest).length →
        r0.date.ltb (((r0 :: rest).getD j defaultRecord).date) = true) →
      ∃ s1 s2, runWriter selicSpec Sheet.empty (r0 :: rest) = some s1 ∧
        runWriter selicSpec s1 (r0 :: rest) = some s2 ∧
        (∀ r c, s2.getCell r c = s1.getCell r c) ∧
        (∀ c, 1 ≤ c → s1.getCell 1 c = (selicSpec.headers.map some).getD (c - 1) none) ∧
        (∀ i, i < (r0 :: rest).length → ∀ c, 1 ≤ c →
          s1.getCell (2 + i) c =
            (selicSpec.formatRecord ((r0 :: rest).getD i defaultRecord)).getD (c - 1) none) ∧
        (∀ r c, 2 + (r0 :: rest).length ≤ r → s1.getCell r c = none)) ∧
    (∀ (r0 : IndicatorRecord) (rest : List IndicatorRecord),
      (∀ j, 0 < j → j < (r0 :: rest).length →
        r0.date.ltb (((r0 :: rest).getD j defaultRecord).date) = true) →
      ∃ s1 s2, runWriter cdiSpec Sheet.empty (r0 :: rest) = some s1 ∧
        runWriter cdiSpec s1 (r0 :: rest) = some s2 ∧
        (∀ r c, s2.getCell r c = s1.getCell r c) ∧
        (∀ c, 1 ≤ c → s1.getCell 1 c = (cdiSpec.headers.map some).getD (c - 1) none) ∧
        (∀ i, i < (r0 :: rest).length → ∀ c, 1 ≤ c →
          s1.getCell (2 + i) c =
            (cdiSpec.formatRecord ((r0 :: rest).getD i defaultRecord)).getD (c - 1) none) ∧
        (∀ r c, 2 + (r0 :: rest).length ≤ r → s1.getCell r c = none)) ∧
    (∀ (r0 : IndicatorRecord) (rest : List IndicatorRecord),
      (∀ j, 0 < j → j < (r0 :: rest).length →
        r0.date.ltb (((r0 :: rest).getD j defaultRecord).date) = true) →
      ∃ s1 s2, runWriter trSpec Sheet.empty (r0 :: rest) = some s1 ∧
        runWriter trSpec s1 (r0 :: rest) = some s2 ∧
        (∀ r c, s2.getCell r c = s1.getCell r c) ∧
        (∀ c, 1 ≤ c → s1.getCell 1 c = (trSpec.headers.map some).getD (c - 1) none) ∧
        (∀ i, i < (r0 :: rest).length → ∀ c, 1 ≤ c →
          s1.getCell (2 + i) c =
            (trSpec.formatRecord ((r0 :: rest).getD i defaultRecord)).getD (c - 1) none) ∧
        (∀ r c, 2 + (r0 :: rest).length ≤ r → s1.getCell r c = none)) ∧
    (∀ (r0 : IndicatorRecord) (rest : List IndicatorRecord),
      r0.date.day = 1 →
      (∀ j, j < (r0 :: rest).length →
        1 ≤ ((r0 :: rest).getD j defaultRecord).date.year ∧
        ((r0 :: rest).getD j defaultRecord).date.year ≤ 9999 ∧
        1 ≤ ((r0 :: rest).getD j defaultRecord).date.month ∧
        ((r0 :: rest).getD j defaultRecord).date.month ≤ 12) →
      (∀ j, 0 < j → j < (r0 :: rest).length →
        (r0.date.year < ((r0 :: rest).getD j defaultRecord).date.year ∨
          (r0.date.year = ((r0 :: rest).getD j defaultRecord).date.year ∧
            r0.date.month < ((r0 :: rest).getD j defaultRecord).date.month))) →
      ∃ s1 s2, runWriter ipcaSpec Sheet.empty (r0 :: rest) = some s1 ∧
        runWriter ipcaSpec s1 (r0 :: rest) = some s2 ∧
        (∀ r c, s2.getCell r c = s1.getCell r c) ∧
        (∀ c, 1 ≤ c → s1.getCell 1 c = (ipcaSpec.headers.map some).getD (c - 1) none) ∧
        (∀ i, i < (r0 :: rest).length → ∀ c, 1 ≤ c →
          s1.getCell (2 + i) c =
            (ipcaSpec.formatRecord ((r0 :: rest).getD i defaultRecord)).getD (c - 1) none) ∧
        (∀ r c, 2 + (r0 :: rest).length ≤ r → s1.getCell r c = none)) :=
  ⟨fun r0 rest hasc => datekeyed_idempotent selicSpec rfl
      (fun rec => by simp [selicSpec, SelicWriter.formatRecord])
      (fun rec => rfl) r0 rest hasc,
    fun r0 rest hasc => datekeyed_idempotent cdiSpec rfl
      (fun rec => by simp [cdiSpec, CdiWriter.formatRecord])
      (fun rec => rfl) r0 rest hasc,
    fun r0 rest hasc => datekeyed_idempotent trSpec rfl
      (fun rec => by simp [trSpec, TrWriter.formatRecord])
      (fun rec => rfl) r0 rest hasc,
    fun r0 rest hday hvalid hasc => ipca_idempotent r0 rest hday hvalid hasc⟩

/-- C5 witness for the amended claim: the Selic variant written twice with
two ascending records. -/
theorem C5_write_twice_amended_witness :
    (∀ j, 0 < j → j < ([c5w1, c5w2] : List IndicatorRecord).length →
      c5w1.date.ltb ((([c5w1, c5w2] : List IndicatorRecord).getD j
        defaultRecord).date) = true) ∧
    (∃ s1 s2, runWriter selicSpec Sheet.empty [c5w1, c5w2] = some s1 ∧
      runWriter selicSpec s1 [c5w1, c5w2] = some s2 ∧
      (∀ r c, s2.getCell r c = s1.getCell r c) ∧
      (∀ c, 1 ≤ c → s1.getCell 1 c = (selicSpec.headers.map some).getD (c - 1) none) ∧
      (∀ i, i < ([c5w1, c5w2] : List IndicatorRecord).length → ∀ c, 1 ≤ c →
        s1.getCell (2 + i) c =
          (selicSpec.formatRecord (([c5w1, c5w2] : List IndicatorRecord).getD i
            defaultRecord)).getD (c - 1) none) ∧
      (∀ r c, 2 + ([c5w1, c5w2] : List IndicatorRecord).length ≤ r →
        s1.getCell r c = none)) := by
  have hval : ∀ j, 0 < j → j < ([c5w1, c5w2] : List IndicatorRecord).length →
      c5w1.date.ltb ((([c5w1, c5w2] : List IndicatorRecord).getD j
        defaultRecord).date) = true := by
    intro j h0 h2
    simp only [List.length_cons, List.length_nil] at h2
    interval_cases j
    decide
  exact ⟨hval, C5_write_twice_amended.1 c5w1 [c5w2] hval⟩
